import Mathlib

/-!
# desktop-window-manager: the native window bridge (`src/window_manager_win.cpp`)

A shallow embedding of the six exported operations (`getWindows`, `focusWindow`,
`focusWindowByHandle`, `getActiveWindow`, `moveWindow`, `resizeWindow`) together with a
small sequential model of the Win32 calls they make.

* Every Win32 call is a step of the monad `OsM`: it reads or updates an `OsState` and is
  recorded, in order, in the list of calls of the run.
* `std::string` is a list of bytes, `HWND` and the C integers are `Int`; where the source
  computes in 32 bits (`Int32Value`, the `LONG` differences of a `RECT`) the result wraps.
* `std::regex` is library code: it is a parameter (`StdRegex`).
-/

set_option autoImplicit false

namespace WindowManager

/-! ## Strings -/

/-- A `std::string`: the sequence of its bytes (each byte as its unsigned value). -/
abbrev CString := List Nat

/-- The C library `tolower` in the "C" locale (the locale a process starts in): only the
ASCII capitals `A`..`Z` (65..90) are mapped, every other byte is returned as it is. -/
def tolower (c : Nat) : Nat :=
  if 65 ≤ c ∧ c ≤ 90 then c + 32 else c

/-- The call `std::transform(s.begin(), s.end(), s.begin(), ::tolower)`. -/
def transformTolower (s : CString) : CString :=
  s.map tolower

/-- The member `std::string::find(pat)`: the lowest position at which `pat` occurs in `s`,
`none` standing for `std::string::npos`. -/
def find : CString → CString → Option Nat
  | [], pat => if pat.isEmpty then some 0 else none
  | c :: t, pat => if pat.isPrefixOf (c :: t) then some 0 else (find t pat).map (· + 1)

/-- The test of the literal branch of `FocusWindow` (source lines 108 to 115):
`lowerTitle.find(lowerPattern) != std::string::npos` on the lower-cased copies. -/
def literalMatch (pattern title : CString) : Bool :=
  let lowerPattern := transformTolower pattern
  let lowerTitle := transformTolower title
  (find lowerTitle lowerPattern).isSome

/-- The bytes of an ASCII string literal (used to write examples readably). -/
def ascii (s : String) : CString :=
  s.toList.map Char.toNat

/-- The UTF-8 bytes of a character. -/
def utf8Char (c : Char) : CString :=
  let n := c.toNat
  if n < 128 then [n]
  else if n < 2048 then [192 + n / 64, 128 + n % 64]
  else if n < 65536 then [224 + n / 4096, 128 + n / 64 % 64, 128 + n % 64]
  else [240 + n / 262144, 128 + n / 4096 % 64, 128 + n / 64 % 64, 128 + n % 64]

/-- The UTF-8 bytes of a string: what `Utf8Value()` gives for it, and the window text of
that string under a UTF-8 ANSI code page. -/
def utf8 (s : String) : CString :=
  s.toList.foldr (fun c acc => utf8Char c ++ acc) []

/-- The other-case counterpart of an ASCII letter; any other byte is unchanged. -/
def swapcase (c : Nat) : Nat :=
  if 65 ≤ c ∧ c ≤ 90 then c + 32 else if 97 ≤ c ∧ c ≤ 122 then c - 32 else c

/-- Change the case of the letters of `s` at the positions where `mask` holds `true`. -/
def changeCase : List Bool → CString → CString
  | [], s => s
  | _ :: _, [] => []
  | b :: m, c :: s => (if b then swapcase c else c) :: changeCase m s

/-! ## The regular-expression library -/

/-- The part of `std::regex` the program uses. `basic_regex p` is the constructor
`std::regex re(p, std::regex::icase)`, `none` when it throws `std::regex_error`;
`regex_search title re` is `std::regex_search(title, re)`, `none` when the search itself
throws `std::regex_error` (the standard lets a match give up with `error_complexity` or
`error_stack`). -/
structure StdRegex where
  /-- Compiled expressions. -/
  Regex : Type
  /-- The constructor with the flag `icase`. -/
  basic_regex : CString → Option Regex
  /-- Unanchored search. -/
  regex_search : CString → Regex → Option Bool

/-! ## The operating system -/

/-- A window handle; `0` is `nullptr`. -/
abbrev HWND := Int

/-- The difference `a - b` of two `LONG`s (32-bit signed integers) as the machine computes
it: modulo 2^32, read as a signed integer. -/
def subLONG (a b : Int) : Int :=
  (a - b + 2147483648) % 4294967296 - 2147483648

/-- The Win32 `RECT`; its four fields are `LONG`s. -/
structure RECT where
  left : Int
  top : Int
  right : Int
  bottom : Int
  deriving DecidableEq, Repr

/-- A top-level window as the OS knows it. -/
structure Window where
  /-- Its handle. -/
  hwnd : HWND
  /-- What `IsWindowVisible` reports. -/
  visible : Bool
  /-- What `IsIconic` reports (minimized). -/
  iconic : Bool
  /-- The window text in the ANSI code page, without its terminating NUL. -/
  text : CString
  /-- The window rectangle in screen coordinates. -/
  rect : RECT
  /-- Whether `GetWindowRect` reports failure for it (the source tests for that). -/
  rectFails : Bool
  /-- Whether the OS refuses `SetWindowPos` on it (a window of a more privileged process). -/
  locked : Bool
  deriving DecidableEq, Repr

/-- The window registry and focus state. `windows` lists the top-level windows in Z order,
the topmost first; `EnumWindows` walks them in that order. -/
structure OsState where
  windows : List Window
  /-- The foreground window, `0` when there is none. -/
  foreground : HWND
  /-- The window with the keyboard focus, `0` when there is none. -/
  focus : HWND
  deriving DecidableEq, Repr

/-- The Win32 calls the program makes. -/
inductive OsCall where
  | EnumWindows
  | IsWindowVisible (hWnd : HWND)
  | GetWindowTextLengthA (hWnd : HWND)
  | GetWindowTextA (hWnd : HWND) (nMaxCount : Int)
  | GetWindowRect (hWnd : HWND)
  | GetForegroundWindow
  | IsWindow (hWnd : HWND)
  | IsIconic (hWnd : HWND)
  | ShowWindow (hWnd : HWND) (nCmdShow : Nat)
  | SetForegroundWindow (hWnd : HWND)
  | SetFocus (hWnd : HWND)
  | SetWindowPos (hWnd hWndInsertAfter : HWND) (X Y cx cy : Int) (uFlags : Nat)
  deriving DecidableEq, Repr

/-- The calls that ask the OS to change a window: restore, foreground, focus, set-position. -/
def OsCall.mutating : OsCall → Bool
  | .ShowWindow _ _ => true
  | .SetForegroundWindow _ => true
  | .SetFocus _ => true
  | .SetWindowPos _ _ _ _ _ _ _ => true
  | _ => false

/-- The window a mutating call is applied to (`0` for the calls that name none). -/
def OsCall.target : OsCall → HWND
  | .ShowWindow h _ => h
  | .SetForegroundWindow h => h
  | .SetFocus h => h
  | .SetWindowPos h _ _ _ _ _ _ => h
  | .IsWindowVisible h => h
  | .GetWindowTextLengthA h => h
  | .GetWindowTextA h _ => h
  | .GetWindowRect h => h
  | .IsWindow h => h
  | .IsIconic h => h
  | .EnumWindows => 0
  | .GetForegroundWindow => 0

/-- The result of running a piece of the program: its value, the OS state it leaves and
the Win32 calls it made, in order. -/
structure Run (α : Type) where
  val : α
  state : OsState
  calls : List OsCall

/-- Code that talks to the OS. -/
def OsM (α : Type) : Type := OsState → Run α

/-- Return without calling the OS. -/
def OsM.pure {α : Type} (a : α) : OsM α :=
  fun s => ⟨a, s, []⟩

/-- Sequencing: the second part runs in the state the first one left; the calls add up. -/
def OsM.bind {α β : Type} (m : OsM α) (f : α → OsM β) : OsM β :=
  fun s =>
    let r := m s
    let r2 := f r.val r.state
    ⟨r2.val, r2.state, r.calls ++ r2.calls⟩

/-- The monad structure of `OsM`. -/
instance : Monad OsM where
  pure := OsM.pure
  bind := OsM.bind

/-- The window registered under a handle, if any. -/
def OsState.lookup (s : OsState) (h : HWND) : Option Window :=
  s.windows.find? (fun w => w.hwnd == h)

/-- The handles in Z order, topmost first. -/
def OsState.zorder (s : OsState) : List HWND :=
  s.windows.map (·.hwnd)

/-- Replace the record of window `h`, keeping its place. -/
def OsState.update (s : OsState) (h : HWND) (f : Window → Window) : OsState :=
  { s with windows := s.windows.map (fun w => if w.hwnd == h then f w else w) }

/-- Bring window `w` (with its record replaced by `w1`) to the top of the Z order. -/
def OsState.raise (s : OsState) (w1 : Window) : OsState :=
  { s with windows := w1 :: s.windows.filter (fun v => v.hwnd != w1.hwnd) }

/-- The `ShowWindow` command that activates and displays a window, un-minimizing it. -/
def SW_RESTORE : Nat := 9

/-- The `SetWindowPos` flag "retains the current size". -/
def SWP_NOSIZE : Nat := 0x0001

/-- The `SetWindowPos` flag "retains the current position". -/
def SWP_NOMOVE : Nat := 0x0002

/-- The `SetWindowPos` flag "retains the current Z order". -/
def SWP_NOZORDER : Nat := 0x0004

/-- The `SetWindowPos` flag "does not activate the window". -/
def SWP_NOACTIVATE : Nat := 0x0010

/-- The value of `hWndInsertAfter` that places a window at the top; it is the null handle. -/
def HWND_TOP : HWND := 0

/-- The value of `hWndInsertAfter` that places a window at the bottom. -/
def HWND_BOTTOM : HWND := 1

/-- Whether a flag is set in a flag word. -/
def hasFlag (uFlags flag : Nat) : Bool :=
  uFlags &&& flag != 0

/-- Whether the handle identifies an existing window. -/
def OsState.live (s : OsState) (h : HWND) : Bool :=
  (s.lookup h).isSome

/-- What the OS guarantees of its registry: handles are unique and none is null. -/
def OsState.Valid (s : OsState) : Prop :=
  s.zorder.Nodup ∧ (0 : HWND) ∉ s.zorder

/-- Validity of a registry can be computed. -/
instance (s : OsState) : Decidable s.Valid :=
  inferInstanceAs (Decidable (_ ∧ _))

/-- Win32 `IsWindow`: whether the handle identifies an existing window. -/
def IsWindow (hWnd : HWND) : OsM Bool :=
  fun s => ⟨s.live hWnd, s, [.IsWindow hWnd]⟩

/-- Win32 `IsWindowVisible`. -/
def IsWindowVisible (hWnd : HWND) : OsM Bool :=
  fun s => ⟨match s.lookup hWnd with
            | some w => w.visible
            | none => false, s, [.IsWindowVisible hWnd]⟩

/-- Win32 `GetWindowTextLengthA`: the length of the window text, `0` without text or window. -/
def GetWindowTextLengthA (hWnd : HWND) : OsM Int :=
  fun s => ⟨match s.lookup hWnd with
            | some w => (w.text.length : Int)
            | none => 0, s, [.GetWindowTextLengthA hWnd]⟩

/-- Win32 `GetWindowTextA(hWnd, buffer, nMaxCount)` followed by `std::string(buffer)`:
at most `nMaxCount - 1` bytes of the window text. -/
def GetWindowTextA (hWnd : HWND) (nMaxCount : Int) : OsM CString :=
  fun s => ⟨match s.lookup hWnd with
            | some w => w.text.take (nMaxCount - 1).toNat
            | none => [], s, [.GetWindowTextA hWnd nMaxCount]⟩

/-- Win32 `GetWindowRect`: `none` when the call returns `FALSE`. -/
def GetWindowRect (hWnd : HWND) : OsM (Option RECT) :=
  fun s => ⟨match s.lookup hWnd with
            | some w => if w.rectFails then none else some w.rect
            | none => none, s, [.GetWindowRect hWnd]⟩

/-- Win32 `GetForegroundWindow`. -/
def GetForegroundWindow : OsM HWND :=
  fun s => ⟨s.foreground, s, [.GetForegroundWindow]⟩

/-- Win32 `IsIconic`. -/
def IsIconic (hWnd : HWND) : OsM Bool :=
  fun s => ⟨match s.lookup hWnd with
            | some w => w.iconic
            | none => false, s, [.IsIconic hWnd]⟩

/-- Win32 `ShowWindow`; `SW_RESTORE` un-minimizes the window. The value is whether the
window was visible before. -/
def ShowWindow (hWnd : HWND) (nCmdShow : Nat) : OsM Bool :=
  fun s => ⟨match s.lookup hWnd with
            | some w => w.visible
            | none => false,
            if nCmdShow = SW_RESTORE then s.update hWnd (fun w => { w with iconic := false, visible := true })
            else s,
            [.ShowWindow hWnd nCmdShow]⟩

/-- Win32 `SetForegroundWindow`: the window becomes the foreground window and goes to the
top of the Z order. -/
def SetForegroundWindow (hWnd : HWND) : OsM Bool :=
  fun s => match s.lookup hWnd with
    | some w => ⟨true, { s.raise w with foreground := hWnd }, [.SetForegroundWindow hWnd]⟩
    | none => ⟨false, s, [.SetForegroundWindow hWnd]⟩

/-- Win32 `SetFocus`: the value is the window that had the focus. -/
def SetFocus (hWnd : HWND) : OsM HWND :=
  fun s => match s.lookup hWnd with
    | some _ => ⟨s.focus, { s with focus := hWnd }, [.SetFocus hWnd]⟩
    | none => ⟨0, s, [.SetFocus hWnd]⟩

/-- Place `w1` in the Z order of `others` as `hWndInsertAfter` asks: `HWND_TOP` first,
`HWND_BOTTOM` last, otherwise right behind the named window. -/
def insertAfter (hWndInsertAfter : HWND) (w1 : Window) (others : List Window) : List Window :=
  if hWndInsertAfter = HWND_TOP then w1 :: others
  else if hWndInsertAfter = HWND_BOTTOM then others ++ [w1]
  else match others.span (fun v => v.hwnd != hWndInsertAfter) with
    | (front, v :: back) => front ++ v :: w1 :: back
    | (front, []) => w1 :: front

/-- Win32 `SetWindowPos`, after its documented contract:
* `SWP_NOMOVE` retains the current position (ignores `X` and `Y`);
* `SWP_NOSIZE` retains the current size (ignores `cx` and `cy`);
* `SWP_NOACTIVATE` does not activate the window; when this flag is NOT set, the window is
  activated and moved to the top of its group of the Z order;
* `SWP_NOZORDER` retains the current Z order (ignores `hWndInsertAfter`).
The call fails (`false`) on a handle that is no window and on a window the OS protects. -/
def SetWindowPos (hWnd hWndInsertAfter : HWND) (X Y cx cy : Int) (uFlags : Nat) : OsM Bool :=
  fun s => match s.lookup hWnd with
    | none => ⟨false, s, [.SetWindowPos hWnd hWndInsertAfter X Y cx cy uFlags]⟩
    | some w =>
      if w.locked then ⟨false, s, [.SetWindowPos hWnd hWndInsertAfter X Y cx cy uFlags]⟩
      else
        let left := if hasFlag uFlags SWP_NOMOVE then w.rect.left else X
        let top := if hasFlag uFlags SWP_NOMOVE then w.rect.top else Y
        let width := if hasFlag uFlags SWP_NOSIZE then w.rect.right - w.rect.left else cx
        let height := if hasFlag uFlags SWP_NOSIZE then w.rect.bottom - w.rect.top else cy
        let w1 : Window := { w with rect := ⟨left, top, left + width, top + height⟩ }
        let s1 : OsState :=
          if !hasFlag uFlags SWP_NOACTIVATE then { s.raise w1 with foreground := hWnd }
          else if hasFlag uFlags SWP_NOZORDER then s.update hWnd (fun _ => w1)
          else { s with windows :=
                  insertAfter hWndInsertAfter w1 (s.windows.filter (fun v => v.hwnd != hWnd)) }
        ⟨true, s1, [.SetWindowPos hWnd hWndInsertAfter X Y cx cy uFlags]⟩

/-- The position in the Z order of a window (`0` is the top). -/
def OsState.zindex (s : OsState) (h : HWND) : Nat :=
  s.zorder.indexOf h

/-- The outer size (width, height) of a window. -/
def OsState.sizeAt (s : OsState) (h : HWND) : Option (Int × Int) :=
  (s.lookup h).map (fun w => (w.rect.right - w.rect.left, w.rect.bottom - w.rect.top))

/-- The top-left corner of a window. -/
def OsState.positionAt (s : OsState) (h : HWND) : Option (Int × Int) :=
  (s.lookup h).map (fun w => (w.rect.left, w.rect.top))

/-! ## Values crossing the bridge -/

/-- A JavaScript value handed to an exported function. Numbers are the integer-valued
ones (the spec passes handles, coordinates and sizes as integers); a string is given by
its UTF-8 bytes. -/
inductive JsValue where
  | undefined
  | null
  | boolean (b : Bool)
  | number (n : Int)
  | string (utf8 : CString)
  | object
  deriving DecidableEq, Repr

/-- N-API `Value::IsString`. -/
def JsValue.IsString : JsValue → Bool
  | .string _ => true
  | _ => false

/-- N-API `Value::IsNumber`. -/
def JsValue.IsNumber : JsValue → Bool
  | .number _ => true
  | _ => false

/-- N-API `Value::IsBoolean`. -/
def JsValue.IsBoolean : JsValue → Bool
  | .boolean _ => true
  | _ => false

/-- N-API `String::Utf8Value`. -/
def JsValue.Utf8Value : JsValue → CString
  | .string utf8 => utf8
  | _ => []

/-- N-API `Boolean::Value`. -/
def JsValue.Value : JsValue → Bool
  | .boolean b => b
  | _ => false

/-- N-API `Number::Int32Value` on an integer-valued number: a number outside the range of
a 32-bit integer is truncated to its bottom 32 bits (read as a signed integer). -/
def JsValue.Int32Value : JsValue → Int
  | .number n => (n + 2147483648) % 4294967296 - 2147483648
  | _ => 0

/-- N-API `Number::Int64Value` on an integer-valued number: the number itself inside the
range of a 64-bit integer, the nearest bound outside it. -/
def JsValue.Int64Value : JsValue → Int
  | .number n =>
    if n < -9223372036854775808 then -9223372036854775808
    else if n > 9223372036854775807 then 9223372036854775807
    else n
  | _ => 0

/-- The argument `info[i]` of a call: `undefined` past the last argument. -/
def arg (info : List JsValue) (i : Nat) : JsValue :=
  info.getD i .undefined

/-- The record built for a window: `handle`, `title`, `position {x, y}`, `size {width, height}`. -/
structure Descriptor where
  handle : Int
  title : CString
  x : Int
  y : Int
  width : Int
  height : Int
  deriving DecidableEq, Repr

/-- What a call of an exported function gives the host: a thrown `TypeError` or `Error`
(with its message) or a returned value. -/
inductive Outcome where
  | TypeError (message : String)
  | Error (message : String)
  | Null
  | Boolean (b : Bool)
  | Object (d : Descriptor)
  | Array (items : List Descriptor)
  deriving DecidableEq, Repr

/-- Whether the call ended in a thrown JavaScript exception. -/
def Outcome.isThrow : Outcome → Bool
  | .TypeError _ => true
  | .Error _ => true
  | _ => false

/-! ## The program -/

/-- The struct `WindowInfo`. -/
structure WindowInfo where
  handle : HWND
  title : CString
  deriving DecidableEq, Repr

/-- The callback `EnumWindowsProc(hwnd, lParam)`: `windows` is the vector `lParam` points
to; the Boolean is the value returned to `EnumWindows` (always `TRUE`). -/
def EnumWindowsProc (hwnd : HWND) (windows : List WindowInfo) : OsM (Bool × List WindowInfo) := do
  if (← IsWindowVisible hwnd) then
    let length ← GetWindowTextLengthA hwnd
    if length > 0 then
      let buffer ← GetWindowTextA hwnd (length + 1)
      pure (true, windows ++ [{ handle := hwnd, title := buffer }])
    else
      pure (true, windows)
  else
    pure (true, windows)

/-- The walk of Win32 `EnumWindows` over the top-level windows: the callback is called on
each handle in turn until it returns `FALSE`. -/
def EnumWindows.walk (lpEnumFunc : HWND → List WindowInfo → OsM (Bool × List WindowInfo)) :
    List HWND → List WindowInfo → OsM (List WindowInfo)
  | [], lParam => pure lParam
  | h :: rest, lParam => do
    let r ← lpEnumFunc h lParam
    if r.1 then EnumWindows.walk lpEnumFunc rest r.2 else pure r.2

/-- Win32 `EnumWindows(lpEnumFunc, lParam)`. -/
def EnumWindows (lpEnumFunc : HWND → List WindowInfo → OsM (Bool × List WindowInfo))
    (lParam : List WindowInfo) : OsM (List WindowInfo) :=
  fun s =>
    let r := EnumWindows.walk lpEnumFunc s.zorder lParam s
    ⟨r.val, r.state, OsCall.EnumWindows :: r.calls⟩

/-- The loop of `GetWindows` (source lines 44 to 71) from index `i` on: `result` holds the
entries already stored. -/
def GetWindows.loop : List WindowInfo → List Descriptor → OsM Outcome
  | [], result => pure (.Array result)
  | win :: rest, result => do
    let hwnd := win.handle
    match (← GetWindowRect hwnd) with
    | none => pure (.TypeError "Underlaying call to Windows API GetWindowRect failed.")
    | some rect =>
      GetWindows.loop rest (result ++ [{
        handle := hwnd, title := win.title, x := rect.left, y := rect.top,
        width := subLONG rect.right rect.left, height := subLONG rect.bottom rect.top }])

/-- The export `getWindows`. -/
def GetWindows (_info : List JsValue) : OsM Outcome := do
  let windows ← EnumWindows EnumWindowsProc []
  GetWindows.loop windows []

/-- The regex loop of `FocusWindow` (source lines 96 to 101), started with
`targetWindow = nullptr`: `none` when `std::regex_search` throws `std::regex_error`. -/
def FocusWindow.regexLoop (lib : StdRegex) (re : lib.Regex) : List WindowInfo → Option HWND
  | [] => some 0
  | win :: rest =>
    match lib.regex_search win.title re with
    | none => none
    | some true => some win.handle
    | some false => FocusWindow.regexLoop lib re rest

/-- The literal loop of `FocusWindow` (source lines 111 to 119), started with
`targetWindow = nullptr`. -/
def FocusWindow.literalLoop (lowerPattern : CString) : List WindowInfo → HWND
  | [] => 0
  | win :: rest =>
    let lowerTitle := transformTolower win.title
    if (find lowerTitle lowerPattern).isSome then win.handle
    else FocusWindow.literalLoop lowerPattern rest

/-- The value of `useRegex` (source line 86). -/
def FocusWindow.useRegex (info : List JsValue) : Bool :=
  if info.length > 1 && (arg info 1).IsBoolean then (arg info 1).Value else false

/-- The search of `FocusWindow` (source lines 91 to 120): `none` when a `std::regex_error`
is caught, otherwise the value of `targetWindow`. -/
def FocusWindow.search (lib : StdRegex) (pattern : CString) (useRegex : Bool)
    (windows : List WindowInfo) : Option HWND :=
  if useRegex then
    match lib.basic_regex pattern with
    | none => none
    | some re => FocusWindow.regexLoop lib re windows
  else
    some (FocusWindow.literalLoop (transformTolower pattern) windows)

/-- The export `focusWindow`. -/
def FocusWindow (lib : StdRegex) (info : List JsValue) : OsM Outcome := do
  if info.length < 1 || !(arg info 0).IsString then
    pure (.TypeError "String expected")
  else
    let pattern := (arg info 0).Utf8Value
    let useRegex := FocusWindow.useRegex info
    let windows ← EnumWindows EnumWindowsProc []
    match FocusWindow.search lib pattern useRegex windows with
    | none => pure (.Error "Invalid regex pattern")
    | some targetWindow =>
      if targetWindow != 0 then
        if (← IsIconic targetWindow) then
          let _ ← ShowWindow targetWindow SW_RESTORE
        let _ ← SetForegroundWindow targetWindow
        let _ ← SetFocus targetWindow
        pure (.Boolean true)
      else
        pure (.Boolean false)

/-- The export `focusWindowByHandle`. -/
def FocusWindowByHandle (info : List JsValue) : OsM Outcome := do
  if info.length < 1 || !(arg info 0).IsNumber then
    pure (.TypeError "Number expected")
  else
    let handleValue := (arg info 0).Int64Value
    let hwnd : HWND := handleValue
    if !(← IsWindow hwnd) then
      pure (.Boolean false)
    else
      if (← IsIconic hwnd) then
        let _ ← ShowWindow hwnd SW_RESTORE
      let _ ← SetForegroundWindow hwnd
      let _ ← SetFocus hwnd
      pure (.Boolean true)

/-- The export `getActiveWindow`. -/
def GetActiveWindowInfo (_info : List JsValue) : OsM Outcome := do
  let hwnd ← GetForegroundWindow
  if hwnd == 0 then
    pure .Null
  else
    let length ← GetWindowTextLengthA hwnd
    let title ← if length > 0 then GetWindowTextA hwnd (length + 1) else pure []
    match (← GetWindowRect hwnd) with
    | none => pure (.TypeError "Underlaying call to Windows API GetWindowRect failed.")
    | some rect =>
      pure (.Object {
        handle := hwnd, title := title, x := rect.left, y := rect.top,
        width := subLONG rect.right rect.left, height := subLONG rect.bottom rect.top })

/-- The export `moveWindow`. -/
def MoveWindowEx (info : List JsValue) : OsM Outcome := do
  if info.length < 3 then
    pure (.TypeError "Expected 3 arguments: handle, x, y")
  else if !(arg info 0).IsNumber || !(arg info 1).IsNumber || !(arg info 2).IsNumber then
    pure (.TypeError "All arguments must be numbers")
  else
    let handleValue := (arg info 0).Int64Value
    let hwnd : HWND := handleValue
    if !(← IsWindow hwnd) then
      pure (.Boolean false)
    else
      let x := (arg info 1).Int32Value
      let y := (arg info 2).Int32Value
      let result ← SetWindowPos hwnd 0 x y 0 0 (SWP_NOSIZE ||| SWP_NOZORDER)
      pure (.Boolean (result != false))

/-- The export `resizeWindow`. -/
def ResizeWindow (info : List JsValue) : OsM Outcome := do
  if info.length < 3 then
    pure (.TypeError "Expected 3 arguments: handle, width, height")
  else if !(arg info 0).IsNumber || !(arg info 1).IsNumber || !(arg info 2).IsNumber then
    pure (.TypeError "All arguments must be numbers")
  else
    let handleValue := (arg info 0).Int64Value
    let hwnd : HWND := handleValue
    if !(← IsWindow hwnd) then
      pure (.Boolean false)
    else
      let width := (arg info 1).Int32Value
      let height := (arg info 2).Int32Value
      let result ← SetWindowPos hwnd 0 0 0 width height (SWP_NOMOVE ||| SWP_NOZORDER)
      pure (.Boolean (result != false))

/-- The names registered by `Init`. -/
inductive Export where
  | getWindows
  | focusWindow
  | focusWindowByHandle
  | getActiveWindow
  | moveWindow
  | resizeWindow
  deriving DecidableEq, Repr

/-- The table `exports` filled by `Init`. -/
def Init (lib : StdRegex) : Export → List JsValue → OsM Outcome
  | .getWindows => GetWindows
  | .focusWindow => FocusWindow lib
  | .focusWindowByHandle => FocusWindowByHandle
  | .getActiveWindow => GetActiveWindowInfo
  | .moveWindow => MoveWindowEx
  | .resizeWindow => ResizeWindow

/-! ## Notions the properties are stated with -/

/-- The vector `windows` after `EnumWindows(EnumWindowsProc, &windows)` (source lines 39,
40 and 88, 89). -/
def enumeration (s : OsState) : List WindowInfo :=
  (EnumWindows EnumWindowsProc [] s).val

/-- The windows that are visible and have a non-empty title, in the order of the OS, each
as its handle and title. -/
def visibleTitled (s : OsState) : List WindowInfo :=
  (s.windows.filter (fun w => w.visible && !w.text.isEmpty)).map
    (fun w => { handle := w.hwnd, title := w.text })

/-- The handle and title of a descriptor. -/
def Descriptor.info (d : Descriptor) : WindowInfo :=
  { handle := d.handle, title := d.title }

/-- The predicate `focusWindow` tests a title with: the literal test, or in regex mode the
search with the compiled pattern giving `true`. -/
def FocusWindow.satisfies (lib : StdRegex) (pattern : CString) (useRegex : Bool)
    (title : CString) : Bool :=
  if useRegex then
    match lib.basic_regex pattern with
    | none => false
    | some re => lib.regex_search title re == some true
  else
    literalMatch pattern title

/-- Whether testing a title raises `std::regex_error`: in regex mode, the constructor having
accepted the pattern, the search on that title throws. Never in literal mode. -/
def FocusWindow.raises (lib : StdRegex) (pattern : CString) (useRegex : Bool)
    (title : CString) : Bool :=
  if useRegex then
    match lib.basic_regex pattern with
    | none => false
    | some re => lib.regex_search title re == none
  else
    false

/-- The mutating calls of the focus sequence on a window: restore when minimized, then
foreground, then focus. -/
def focusSequence (s : OsState) (h : HWND) : List OsCall :=
  (if (IsIconic h s).val then [OsCall.ShowWindow h SW_RESTORE] else []) ++
    [OsCall.SetForegroundWindow h, OsCall.SetFocus h]

/-- The mutating calls among the calls of a run. -/
def Run.mutations {α : Type} (r : Run α) : List OsCall :=
  r.calls.filter OsCall.mutating

/-- The argument lists the interface table of the spec allows: `focusWindow(pattern:
string, useRegex: bool = false)`, `focusWindowByHandle(handle)`, `moveWindow(handle, x, y)`,
`resizeWindow(handle, width, height)`, numbers for handles, coordinates and sizes. -/
def Export.signatureOk : Export → List JsValue → Bool
  | .getWindows, _ => true
  | .getActiveWindow, _ => true
  | .focusWindow, [a] => a.IsString
  | .focusWindow, [a, b] => a.IsString && b.IsBoolean
  | .focusWindowByHandle, [a] => a.IsNumber
  | .moveWindow, [a, b, c] => a.IsNumber && b.IsNumber && c.IsNumber
  | .resizeWindow, [a, b, c] => a.IsNumber && b.IsNumber && c.IsNumber
  | _, _ => false

/-- The types of the arguments an export cannot do without. -/
def Export.required : Export → List (JsValue → Bool)
  | .getWindows => []
  | .getActiveWindow => []
  | .focusWindow => [JsValue.IsString]
  | .focusWindowByHandle => [JsValue.IsNumber]
  | .moveWindow => [JsValue.IsNumber, JsValue.IsNumber, JsValue.IsNumber]
  | .resizeWindow => [JsValue.IsNumber, JsValue.IsNumber, JsValue.IsNumber]

/-- Whether every required argument is present and of its type. -/
def Export.requiredOk (op : Export) (info : List JsValue) : Bool :=
  decide (op.required.length ≤ info.length) &&
    (List.zipWith (fun t v => t v) op.required info).all id

/-- Whether an integer is in the range of a 32-bit signed integer. -/
def inInt32 (n : Int) : Prop :=
  -2147483648 ≤ n ∧ n ≤ 2147483647

/-- The range test can be computed. -/
instance (n : Int) : Decidable (inInt32 n) :=
  inferInstanceAs (Decidable (_ ∧ _))

/-! ## Sample data -/

/-- A stand-in for the regex library, for examples: a pattern with a `(` (byte 40) is
rejected; any other pattern is searched for as a case-insensitive literal. -/
def sampleRegex : StdRegex where
  Regex := CString
  basic_regex := fun p => if p.contains 40 then none else some p
  regex_search := fun title re => some (literalMatch re title)

/-- A stand-in for a regex library whose search gives up: every pattern is accepted, the
search of a title containing "editor" (in any case) throws `std::regex_error`, any other
title is searched for the pattern as a case-insensitive literal. -/
def givingUpRegex : StdRegex where
  Regex := CString
  basic_regex := fun p => some p
  regex_search := fun title re =>
    if literalMatch (ascii "editor") title then none else some (literalMatch re title)

/-- A window with the given handle and title, visible, not minimized. -/
def sampleWindow (h : HWND) (title : String) : Window :=
  { hwnd := h, visible := true, iconic := false, text := ascii title,
    rect := ⟨100, 100, 500, 400⟩, rectFails := false, locked := false }

/-- Three visible windows and a hidden one; window 11 is in the foreground. -/
def sampleOs : OsState :=
  { windows := [sampleWindow 11 "Editor", sampleWindow 12 "My Notepad",
      { sampleWindow 13 "Hidden Notes" with visible := false },
      sampleWindow 14 "Notepad 2", { sampleWindow 15 "" with visible := true }],
    foreground := 11, focus := 11 }

/-- Two windows; the foreground one is a window whose rectangle the OS fails to report. -/
def sampleOsNoRect : OsState :=
  { windows := [{ sampleWindow 21 "Editor" with rectFails := true }, sampleWindow 22 "Shell"],
    foreground := 21, focus := 21 }

/-- A foreground window that spans the whole range of `LONG` coordinates. -/
def sampleOsWide : OsState :=
  { windows := [{ sampleWindow 31 "Wide" with rect := ⟨-2147483648, -2147483648, 2147483647, 2147483647⟩ }],
    foreground := 31, focus := 31 }

/-! ## Running code in `OsM` -/

@[simp] theorem run_pure {α : Type} (a : α) (s : OsState) :
    (pure a : OsM α) s = ⟨a, s, []⟩ := rfl

@[simp] theorem run_bind {α β : Type} (m : OsM α) (f : α → OsM β) (s : OsState) :
    (m >>= f) s = ⟨(f (m s).val (m s).state).val, (f (m s).val (m s).state).state,
      (m s).calls ++ (f (m s).val (m s).state).calls⟩ := rfl

theorem run_ite {α : Type} (c : Prop) [Decidable c] (m1 m2 : OsM α) (s : OsState) :
    (if c then m1 else m2) s = if c then m1 s else m2 s := by
  split <;> rfl

/-! ## Strings -/

theorem find_isSome_iff (s pat : CString) : (find s pat).isSome = true ↔ pat <:+: s := by
  induction s with
  | nil =>
    cases pat <;> simp [find]
  | cons c t ih =>
    unfold find
    by_cases h : pat.isPrefixOf (c :: t) = true
    · simp only [h, if_true, Option.isSome_some, true_iff]
      exact (List.isPrefixOf_iff_prefix.mp h).isInfix
    · simp only [h, if_false, Bool.false_eq_true, Option.isSome_map', ih]
      rw [List.infix_cons_iff]
      constructor
      · intro h1
        exact Or.inr h1
      · rintro (h1 | h1)
        · exact absurd (List.isPrefixOf_iff_prefix.mpr h1) h
        · exact h1

theorem tolower_swapcase (c : Nat) : tolower (swapcase c) = tolower c := by
  unfold tolower swapcase
  split_ifs <;> omega

theorem transformTolower_changeCase (m : List Bool) (s : CString) :
    transformTolower (changeCase m s) = transformTolower s := by
  induction m generalizing s with
  | nil => simp [changeCase]
  | cons b m ih =>
    cases s with
    | nil => simp [changeCase]
    | cons c s =>
      have h := ih s
      unfold transformTolower at h ⊢
      cases b <;> simp [changeCase, h, tolower_swapcase]

/-! ## The OS calls -/

@[simp] theorem IsWindow_run (h : HWND) (s : OsState) :
    IsWindow h s = ⟨s.live h, s, [.IsWindow h]⟩ := rfl

@[simp] theorem IsIconic_state (h : HWND) (s : OsState) : (IsIconic h s).state = s := rfl

@[simp] theorem IsIconic_calls (h : HWND) (s : OsState) :
    (IsIconic h s).calls = [.IsIconic h] := rfl

@[simp] theorem ShowWindow_calls (h : HWND) (c : Nat) (s : OsState) :
    (ShowWindow h c s).calls = [.ShowWindow h c] := rfl

@[simp] theorem SetForegroundWindow_calls (h : HWND) (s : OsState) :
    (SetForegroundWindow h s).calls = [.SetForegroundWindow h] := by
  unfold SetForegroundWindow
  split <;> rfl

@[simp] theorem SetFocus_calls (h : HWND) (s : OsState) :
    (SetFocus h s).calls = [.SetFocus h] := by
  unfold SetFocus
  split <;> rfl

@[simp] theorem SetWindowPos_calls (h a : HWND) (X Y cx cy : Int) (f : Nat) (s : OsState) :
    (SetWindowPos h a X Y cx cy f s).calls = [.SetWindowPos h a X Y cx cy f] := by
  unfold SetWindowPos
  split
  · rfl
  · split <;> rfl

@[simp] theorem GetForegroundWindow_run (s : OsState) :
    GetForegroundWindow s = ⟨s.foreground, s, [.GetForegroundWindow]⟩ := rfl

@[simp] theorem GetWindowRect_state (h : HWND) (s : OsState) : (GetWindowRect h s).state = s := rfl

@[simp] theorem GetWindowRect_calls (h : HWND) (s : OsState) :
    (GetWindowRect h s).calls = [.GetWindowRect h] := rfl

@[simp] theorem GetWindowTextLengthA_state (h : HWND) (s : OsState) :
    (GetWindowTextLengthA h s).state = s := rfl

@[simp] theorem GetWindowTextA_state (h : HWND) (n : Int) (s : OsState) :
    (GetWindowTextA h n s).state = s := rfl

/-! ## The enumeration -/

theorem find_hwnd_of_mem (ws : List Window) (hs : (ws.map (·.hwnd)).Nodup) (w : Window)
    (hw : w ∈ ws) : ws.find? (fun v => v.hwnd == w.hwnd) = some w := by
  induction ws with
  | nil => simp at hw
  | cons v vs ih =>
    rw [List.map_cons, List.nodup_cons] at hs
    rcases List.mem_cons.mp hw with h | h
    · subst h
      simp
    · have hne : v.hwnd ≠ w.hwnd := by
        intro he
        apply hs.1
        rw [he]
        exact List.mem_map_of_mem _ h
      simp [List.find?_cons, hne, ih hs.2 h]

theorem lookup_of_mem (s : OsState) (hs : s.zorder.Nodup) (w : Window) (hw : w ∈ s.windows) :
    s.lookup w.hwnd = some w :=
  find_hwnd_of_mem s.windows hs w hw

theorem lookup_hwnd (s : OsState) (h : HWND) (w : Window) (hl : s.lookup h = some w) :
    w.hwnd = h ∧ w ∈ s.windows := by
  unfold OsState.lookup at hl
  have h1 := List.find?_some hl
  have h2 := List.mem_of_find?_eq_some hl
  simp at h1
  exact ⟨h1, h2⟩

/-- What the callback appends for a handle. -/
theorem EnumWindowsProc_val (h : HWND) (acc : List WindowInfo) (s : OsState) :
    (EnumWindowsProc h acc s).val = (true, acc ++
      match s.lookup h with
      | some w => if w.visible && !w.text.isEmpty then [{ handle := h, title := w.text }] else []
      | none => []) := by
  simp only [EnumWindowsProc, run_bind, run_ite]
  simp only [IsWindowVisible, GetWindowTextLengthA, GetWindowTextA]
  cases hl : s.lookup h with
  | none => simp [hl]
  | some w =>
    cases hv : w.visible with
    | false => simp [hl, hv]
    | true =>
      cases ht : w.text with
      | nil => simp [hl, hv, ht]
      | cons c t =>
        have hpos : (0 : Int) < (↑t.length + 1) := by omega
        simp [hl, hv, ht, hpos]

theorem EnumWindowsProc_state (h : HWND) (acc : List WindowInfo) (s : OsState) :
    (EnumWindowsProc h acc s).state = s := by
  simp only [EnumWindowsProc, run_bind, run_ite]
  simp [IsWindowVisible, GetWindowTextLengthA, GetWindowTextA]
  split <;> simp
  split <;> simp

theorem EnumWindowsProc_calls (h : HWND) (acc : List WindowInfo) (s : OsState) :
    ∀ c ∈ (EnumWindowsProc h acc s).calls, c.mutating = false := by
  simp only [EnumWindowsProc, run_bind, run_ite]
  simp [IsWindowVisible, GetWindowTextLengthA, GetWindowTextA]
  split <;> simp [OsCall.mutating]
  split <;> simp [OsCall.mutating]

theorem walk_state (hs : List HWND) (acc : List WindowInfo) (s : OsState) :
    (EnumWindows.walk EnumWindowsProc hs acc s).state = s := by
  induction hs generalizing acc with
  | nil => simp [EnumWindows.walk]
  | cons h rest ih =>
    simp only [EnumWindows.walk, run_bind, EnumWindowsProc_val, EnumWindowsProc_state, if_true]
    exact ih _

theorem walk_calls (hs : List HWND) (acc : List WindowInfo) (s : OsState) :
    ∀ c ∈ (EnumWindows.walk EnumWindowsProc hs acc s).calls, c.mutating = false := by
  induction hs generalizing acc with
  | nil => simp [EnumWindows.walk]
  | cons h rest ih =>
    simp only [EnumWindows.walk, run_bind, EnumWindowsProc_val, EnumWindowsProc_state, if_true]
    intro c hc
    rcases List.mem_append.mp hc with h1 | h1
    · exact EnumWindowsProc_calls h acc s c h1
    · exact ih _ c h1

theorem walk_val (s : OsState) (ws : List Window)
    (hws : ∀ w ∈ ws, s.lookup w.hwnd = some w) (acc : List WindowInfo) :
    (EnumWindows.walk EnumWindowsProc (ws.map (·.hwnd)) acc s).val =
      acc ++ (ws.filter (fun w => w.visible && !w.text.isEmpty)).map
        (fun w => { handle := w.hwnd, title := w.text }) := by
  induction ws generalizing acc with
  | nil => simp [EnumWindows.walk]
  | cons w rest ih =>
    have hw : s.lookup w.hwnd = some w := hws w (List.mem_cons_self _ _)
    have hrest : ∀ v ∈ rest, s.lookup v.hwnd = some v :=
      fun v hv => hws v (List.mem_cons_of_mem _ hv)
    simp only [List.map_cons, EnumWindows.walk, run_bind, EnumWindowsProc_val,
      EnumWindowsProc_state, if_true, hw]
    rw [ih hrest]
    by_cases hc : (w.visible && !w.text.isEmpty) = true
    · simp [List.filter_cons, hc]
    · simp [List.filter_cons, hc]

theorem EnumWindows_state (acc : List WindowInfo) (s : OsState) :
    (EnumWindows EnumWindowsProc acc s).state = s := by
  simp [EnumWindows, walk_state]

theorem EnumWindows_calls (acc : List WindowInfo) (s : OsState) :
    ∀ c ∈ (EnumWindows EnumWindowsProc acc s).calls, c.mutating = false := by
  intro c hc
  simp only [EnumWindows, List.mem_cons] at hc
  rcases hc with h | h
  · subst h
    rfl
  · exact walk_calls _ _ _ c h

theorem EnumWindows_mutations (acc : List WindowInfo) (s : OsState) :
    (EnumWindows EnumWindowsProc acc s).calls.filter OsCall.mutating = [] := by
  rw [List.filter_eq_nil_iff]
  intro c hc
  simp [EnumWindows_calls acc s c hc]

theorem enumeration_eq (s : OsState) (hs : s.zorder.Nodup) :
    enumeration s = visibleTitled s := by
  unfold enumeration visibleTitled EnumWindows
  have h := walk_val s s.windows (fun w hw => lookup_of_mem s hs w hw) []
  simpa [OsState.zorder] using h

/-! ## The search of `FocusWindow` -/

theorem literalLoop_find (p : CString) (ws : List WindowInfo) :
    FocusWindow.literalLoop (transformTolower p) ws =
      match ws.find? (fun w => literalMatch p w.title) with
      | some w => w.handle
      | none => 0 := by
  induction ws with
  | nil => rfl
  | cons w rest ih =>
    by_cases h : literalMatch p w.title = true
    · have h1 := h
      unfold literalMatch at h1
      simp [FocusWindow.literalLoop, List.find?_cons, h, h1]
    · have h1 := h
      unfold literalMatch at h1
      simp [FocusWindow.literalLoop, List.find?_cons, h, h1, ih]

theorem regexLoop_find (lib : StdRegex) (re : lib.Regex) (ws : List WindowInfo)
    (hok : ∀ w ∈ ws, lib.regex_search w.title re ≠ none) :
    FocusWindow.regexLoop lib re ws =
      some (match ws.find? (fun w => lib.regex_search w.title re == some true) with
        | some w => w.handle
        | none => 0) := by
  induction ws with
  | nil => rfl
  | cons w rest ih =>
    have hrest : ∀ v ∈ rest, lib.regex_search v.title re ≠ none :=
      fun v hv => hok v (List.mem_cons_of_mem _ hv)
    have hw := hok w (List.mem_cons_self _ _)
    cases hr : lib.regex_search w.title re with
    | none => exact absurd hr hw
    | some b =>
      cases b with
      | true => simp [FocusWindow.regexLoop, List.find?_cons, hr]
      | false => simp [FocusWindow.regexLoop, List.find?_cons, hr, ih hrest]

theorem find_first {α : Type} (pred : α → Bool) (ws : List α) (i : Nat) (wi : α)
    (hi : ws[i]? = some wi) (hp : pred wi = true)
    (hfirst : ∀ k w, k < i → ws[k]? = some w → pred w = false) :
    ws.find? pred = some wi := by
  induction ws generalizing i with
  | nil => simp at hi
  | cons v vs ih =>
    cases i with
    | zero =>
      simp at hi
      subst hi
      simp [List.find?_cons, hp]
    | succ n =>
      have hv : pred v = false := hfirst 0 v (Nat.succ_pos n) (by simp)
      have hi1 : vs[n]? = some wi := by simpa using hi
      have := ih n hi1 (fun k w hk hw => hfirst (k + 1) w (by omega) (by simpa using hw))
      simp [List.find?_cons, hv, this]

theorem visibleTitled_handles_sublist (s : OsState) :
    List.Sublist ((visibleTitled s).map (·.handle)) s.zorder := by
  unfold visibleTitled OsState.zorder
  rw [List.map_map]
  exact (List.filter_sublist s.windows).map _

theorem visibleTitled_handle_ne_zero (s : OsState) (hs : s.Valid) (w : WindowInfo)
    (hw : w ∈ visibleTitled s) : w.handle ≠ 0 := by
  intro h0
  apply hs.2
  rw [← h0]
  exact (visibleTitled_handles_sublist s).subset (List.mem_map_of_mem _ hw)

theorem visibleTitled_handle_ne (s : OsState) (hs : s.Valid) (i j : Nat) (wi wj : WindowInfo)
    (hij : i < j) (hi : (visibleTitled s)[i]? = some wi) (hj : (visibleTitled s)[j]? = some wj) :
    wi.handle ≠ wj.handle := by
  have hnd : ((visibleTitled s).map (·.handle)).Nodup :=
    (visibleTitled_handles_sublist s).nodup hs.1
  rw [List.nodup_iff_getElem?_ne_getElem?] at hnd
  have hjlt : j < ((visibleTitled s).map (·.handle)).length := by
    rw [List.length_map]
    exact (List.getElem?_eq_some_iff.mp hj).1
  have := hnd i j hij hjlt
  intro he
  apply this
  simp [List.getElem?_map, hi, hj, he]

theorem find_index {α : Type} (pred : α → Bool) (ws : List α) (w : α)
    (h : ws.find? pred = some w) :
    ∃ i : Nat, ws[i]? = some w ∧ pred w = true ∧
      ∀ (k : Nat) (v : α), k < i → ws[k]? = some v → pred v = false := by
  induction ws with
  | nil => simp at h
  | cons a rest ih =>
    by_cases ha : pred a = true
    · simp only [List.find?_cons, ha] at h
      have hw : a = w := Option.some.inj h
      subst hw
      exact ⟨0, by simp, ha, fun k v hk _ => absurd hk (Nat.not_lt_zero k)⟩
    · have ha1 : pred a = false := by simpa using ha
      simp only [List.find?_cons, ha1] at h
      obtain ⟨i, hi, hp, hpre⟩ := ih h
      refine ⟨i + 1, by simpa using hi, hp, ?_⟩
      intro k v hk hv
      cases k with
      | zero =>
        simp at hv
        subst hv
        exact ha1
      | succ m => exact hpre m v (by omega) (by simpa using hv)

theorem regexLoop_event (lib : StdRegex) (re : lib.Regex) (ws : List WindowInfo) (i : Nat)
    (wi : WindowInfo) (hi : ws[i]? = some wi)
    (hev : lib.regex_search wi.title re ≠ some false)
    (hpre : ∀ (k : Nat) (w : WindowInfo), k < i → ws[k]? = some w → lib.regex_search w.title re = some false) :
    FocusWindow.regexLoop lib re ws =
      (lib.regex_search wi.title re).map (fun _ => wi.handle) := by
  induction ws generalizing i with
  | nil => simp at hi
  | cons v vs ih =>
    cases i with
    | zero =>
      simp at hi
      subst hi
      cases hr : lib.regex_search v.title re with
      | none => simp [FocusWindow.regexLoop, hr]
      | some b =>
        cases b with
        | true => simp [FocusWindow.regexLoop, hr]
        | false => exact absurd hr hev
    | succ n =>
      have hv : lib.regex_search v.title re = some false := hpre 0 v (Nat.succ_pos n) (by simp)
      have hi1 : vs[n]? = some wi := by simpa using hi
      have := ih n hi1 (fun k w hk hw => hpre (k + 1) w (by omega) (by simpa using hw))
      simp [FocusWindow.regexLoop, hv, this]

theorem regexLoop_index (lib : StdRegex) (re : lib.Regex) (ws : List WindowInfo) (t : HWND)
    (ht : t ≠ 0) (h : FocusWindow.regexLoop lib re ws = some t) :
    ∃ (i : Nat) (wi : WindowInfo), ws[i]? = some wi ∧ wi.handle = t ∧ lib.regex_search wi.title re = some true ∧
      ∀ (k : Nat) (w : WindowInfo), k < i → ws[k]? = some w → lib.regex_search w.title re = some false := by
  induction ws with
  | nil =>
    simp [FocusWindow.regexLoop] at h
    exact absurd h.symm ht
  | cons v vs ih =>
    cases hr : lib.regex_search v.title re with
    | none => simp [FocusWindow.regexLoop, hr] at h
    | some b =>
      cases b with
      | true =>
        simp [FocusWindow.regexLoop, hr] at h
        exact ⟨0, v, by simp, h, hr, fun k w hk _ => absurd hk (Nat.not_lt_zero k)⟩
      | false =>
        simp only [FocusWindow.regexLoop, hr] at h
        obtain ⟨i, wi, hi, hh, hs, hpre⟩ := ih h
        refine ⟨i + 1, wi, by simpa using hi, hh, hs, ?_⟩
        intro k w hk hw
        cases k with
        | zero =>
          simp at hw
          subst hw
          exact hr
        | succ m => exact hpre m w (by omega) (by simpa using hw)

/-- In regex mode with a compiled pattern, a title that neither satisfies the predicate nor
raises is one the search rejects. -/
theorem search_false_of (lib : StdRegex) (p : CString) (re : lib.Regex)
    (hre : lib.basic_regex p = some re) (title : CString)
    (h : FocusWindow.satisfies lib p true title = false ∧ FocusWindow.raises lib p true title = false) :
    lib.regex_search title re = some false := by
  obtain ⟨h1, h2⟩ := h
  simp only [FocusWindow.satisfies, FocusWindow.raises, hre, if_true] at h1 h2
  cases hr : lib.regex_search title re with
  | none => simp [hr] at h2
  | some b =>
    cases b with
    | true => simp [hr] at h1
    | false => rfl

theorem search_first_match (lib : StdRegex) (p : CString) (u : Bool) (ws : List WindowInfo)
    (i : Nat) (wi : WindowInfo) (hi : ws[i]? = some wi)
    (hsat : FocusWindow.satisfies lib p u wi.title = true)
    (hpre : ∀ (k : Nat) (w : WindowInfo), k < i → ws[k]? = some w →
      FocusWindow.satisfies lib p u w.title = false ∧ FocusWindow.raises lib p u w.title = false) :
    FocusWindow.search lib p u ws = some wi.handle := by
  cases u with
  | false =>
    have hf := find_first (fun w : WindowInfo => literalMatch p w.title) ws i wi hi
      (by simpa [FocusWindow.satisfies] using hsat)
      (fun k w hk hw => by simpa [FocusWindow.satisfies] using (hpre k w hk hw).1)
    simp [FocusWindow.search, literalLoop_find, hf]
  | true =>
    cases hre : lib.basic_regex p with
    | none => simp [FocusWindow.satisfies, hre] at hsat
    | some re =>
      have hs : lib.regex_search wi.title re = some true := by
        simpa [FocusWindow.satisfies, hre] using hsat
      have := regexLoop_event lib re ws i wi hi (by simp [hs])
        (fun k w hk hw => search_false_of lib p re hre w.title (hpre k w hk hw))
      simp [FocusWindow.search, hre, this, hs]

theorem search_first_raise (lib : StdRegex) (p : CString) (u : Bool) (ws : List WindowInfo)
    (i : Nat) (wi : WindowInfo) (hi : ws[i]? = some wi)
    (hr : FocusWindow.raises lib p u wi.title = true)
    (hpre : ∀ (k : Nat) (w : WindowInfo), k < i → ws[k]? = some w →
      FocusWindow.satisfies lib p u w.title = false ∧ FocusWindow.raises lib p u w.title = false) :
    FocusWindow.search lib p u ws = none := by
  cases u with
  | false => simp [FocusWindow.raises] at hr
  | true =>
    cases hre : lib.basic_regex p with
    | none => simp [FocusWindow.search, hre]
    | some re =>
      have hs : lib.regex_search wi.title re = none := by
        simpa [FocusWindow.raises, hre] using hr
      have := regexLoop_event lib re ws i wi hi (by simp [hs])
        (fun k w hk hw => search_false_of lib p re hre w.title (hpre k w hk hw))
      simp [FocusWindow.search, hre, this, hs]

theorem search_no_event (lib : StdRegex) (p : CString) (u : Bool) (ws : List WindowInfo)
    (hvalid : u = true → (lib.basic_regex p).isSome = true)
    (hall : ∀ w ∈ ws,
      FocusWindow.satisfies lib p u w.title = false ∧ FocusWindow.raises lib p u w.title = false) :
    FocusWindow.search lib p u ws = some 0 := by
  cases u with
  | false =>
    have hf : ws.find? (fun w : WindowInfo => literalMatch p w.title) = none := by
      rw [List.find?_eq_none]
      intro w hw
      simpa [FocusWindow.satisfies] using (hall w hw).1
    simp [FocusWindow.search, literalLoop_find, hf]
  | true =>
    cases hre : lib.basic_regex p with
    | none => simp [hre] at hvalid
    | some re =>
      have hsf : ∀ w ∈ ws, lib.regex_search w.title re = some false :=
        fun w hw => search_false_of lib p re hre w.title (hall w hw)
      have hf : ws.find? (fun w : WindowInfo => lib.regex_search w.title re == some true) = none := by
        rw [List.find?_eq_none]
        intro w hw
        simp [hsf w hw]
      have := regexLoop_find lib re ws (fun w hw => by simp [hsf w hw])
      simp [FocusWindow.search, hre, this, hf]

theorem search_index (lib : StdRegex) (p : CString) (u : Bool) (ws : List WindowInfo) (t : HWND)
    (ht : t ≠ 0) (h : FocusWindow.search lib p u ws = some t) :
    ∃ (i : Nat) (wi : WindowInfo), ws[i]? = some wi ∧ FocusWindow.satisfies lib p u wi.title = true ∧
      ∀ (k : Nat) (w : WindowInfo), k < i → ws[k]? = some w →
        FocusWindow.satisfies lib p u w.title = false ∧ FocusWindow.raises lib p u w.title = false := by
  cases u with
  | false =>
    simp only [FocusWindow.search, Bool.false_eq_true, if_false, literalLoop_find,
      Option.some.injEq] at h
    cases hf : ws.find? (fun w : WindowInfo => literalMatch p w.title) with
    | none =>
      rw [hf] at h
      exact absurd h.symm ht
    | some w =>
      obtain ⟨i, hi, hp, hpre⟩ := find_index _ ws w hf
      refine ⟨i, w, hi, by simpa [FocusWindow.satisfies] using hp, ?_⟩
      intro k v hk hv
      exact ⟨by simpa [FocusWindow.satisfies] using hpre k v hk hv, by simp [FocusWindow.raises]⟩
  | true =>
    cases hre : lib.basic_regex p with
    | none => simp [FocusWindow.search, hre] at h
    | some re =>
      simp only [FocusWindow.search, if_true, hre] at h
      obtain ⟨i, wi, hi, _, hs, hpre⟩ := regexLoop_index lib re ws t ht h
      refine ⟨i, wi, hi, by simp [FocusWindow.satisfies, hre, hs], ?_⟩
      intro k w hk hw
      have := hpre k w hk hw
      simp [FocusWindow.satisfies, FocusWindow.raises, hre, this]

theorem FocusWindow_error (lib : StdRegex) (p : CString) (rest : List JsValue) (s : OsState)
    (h : FocusWindow.search lib p (FocusWindow.useRegex (.string p :: rest)) (enumeration s) = none) :
    (FocusWindow lib (.string p :: rest) s).val = .Error "Invalid regex pattern" ∧
    (FocusWindow lib (.string p :: rest) s).state = s ∧
    (FocusWindow lib (.string p :: rest) s).mutations = [] := by
  unfold enumeration at h
  simp [FocusWindow, arg, JsValue.IsString, JsValue.Utf8Value, h, Run.mutations,
    EnumWindows_state, EnumWindows_mutations]

theorem FocusWindow_none (lib : StdRegex) (p : CString) (rest : List JsValue) (s : OsState)
    (h : FocusWindow.search lib p (FocusWindow.useRegex (.string p :: rest)) (enumeration s) = some 0) :
    (FocusWindow lib (.string p :: rest) s).val = .Boolean false ∧
    (FocusWindow lib (.string p :: rest) s).state = s ∧
    (FocusWindow lib (.string p :: rest) s).mutations = [] := by
  unfold enumeration at h
  simp [FocusWindow, arg, JsValue.IsString, JsValue.Utf8Value, h, Run.mutations,
    EnumWindows_state, EnumWindows_mutations]

theorem FocusWindow_some (lib : StdRegex) (p : CString) (rest : List JsValue) (s : OsState)
    (t : HWND) (ht : t ≠ 0)
    (h : FocusWindow.search lib p (FocusWindow.useRegex (.string p :: rest)) (enumeration s) = some t) :
    (FocusWindow lib (.string p :: rest) s).val = .Boolean true ∧
    (FocusWindow lib (.string p :: rest) s).mutations = focusSequence s t := by
  unfold enumeration at h
  simp [FocusWindow, arg, JsValue.IsString, JsValue.Utf8Value, h, ht, Run.mutations,
    EnumWindows_state, EnumWindows_mutations, focusSequence, run_ite]
  split <;> simp [OsCall.mutating]

/-! ## The exports -/

theorem GetWindows_loop (ws : List WindowInfo) (acc : List Descriptor) (t : OsState) :
    (∃ msg, (GetWindows.loop ws acc t).val = .TypeError msg) ∨
    ∃ ds, (GetWindows.loop ws acc t).val = .Array (acc ++ ds) ∧ ds.map Descriptor.info = ws := by
  induction ws generalizing acc with
  | nil => exact Or.inr ⟨[], by simp [GetWindows.loop], rfl⟩
  | cons w rest ih =>
    simp only [GetWindows.loop, run_bind, GetWindowRect_state]
    cases hr : (GetWindowRect w.handle t).val with
    | none => exact Or.inl ⟨"Underlaying call to Windows API GetWindowRect failed.", by simp⟩
    | some rect =>
      rcases ih (acc ++ [⟨w.handle, w.title, rect.left, rect.top, subLONG rect.right rect.left,
          subLONG rect.bottom rect.top⟩]) with ⟨msg, h⟩ | ⟨ds, h, hd⟩
      · exact Or.inl ⟨msg, by simpa using h⟩
      · refine Or.inr ⟨_ :: ds, by simpa using h, ?_⟩
        simp [hd, Descriptor.info]

theorem MoveWindowEx_dead (s : OsState) (n x y : Int) (rest : List JsValue)
    (hdead : s.live (JsValue.number n).Int64Value = false) :
    MoveWindowEx (.number n :: .number x :: .number y :: rest) s =
      ⟨.Boolean false, s, [.IsWindow (JsValue.number n).Int64Value]⟩ := by
  have hlen : ¬ rest.length + 1 + 1 + 1 < 3 := by omega
  simp [MoveWindowEx, arg, JsValue.IsNumber, hdead, run_ite, hlen]

theorem MoveWindowEx_live (s : OsState) (n x y : Int) (rest : List JsValue)
    (hlive : s.live (JsValue.number n).Int64Value = true) :
    MoveWindowEx (.number n :: .number x :: .number y :: rest) s =
      ⟨.Boolean ((SetWindowPos (JsValue.number n).Int64Value 0 (JsValue.number x).Int32Value
          (JsValue.number y).Int32Value 0 0 (SWP_NOSIZE ||| SWP_NOZORDER) s).val != false),
        (SetWindowPos (JsValue.number n).Int64Value 0 (JsValue.number x).Int32Value
          (JsValue.number y).Int32Value 0 0 (SWP_NOSIZE ||| SWP_NOZORDER) s).state,
        [.IsWindow (JsValue.number n).Int64Value,
          .SetWindowPos (JsValue.number n).Int64Value 0 (JsValue.number x).Int32Value
            (JsValue.number y).Int32Value 0 0 (SWP_NOSIZE ||| SWP_NOZORDER)]⟩ := by
  have hlen : ¬ rest.length + 1 + 1 + 1 < 3 := by omega
  simp [MoveWindowEx, arg, JsValue.IsNumber, hlive, run_ite, hlen]

theorem ResizeWindow_dead (s : OsState) (n width height : Int) (rest : List JsValue)
    (hdead : s.live (JsValue.number n).Int64Value = false) :
    ResizeWindow (.number n :: .number width :: .number height :: rest) s =
      ⟨.Boolean false, s, [.IsWindow (JsValue.number n).Int64Value]⟩ := by
  have hlen : ¬ rest.length + 1 + 1 + 1 < 3 := by omega
  simp [ResizeWindow, arg, JsValue.IsNumber, hdead, run_ite, hlen]

theorem ResizeWindow_live (s : OsState) (n width height : Int) (rest : List JsValue)
    (hlive : s.live (JsValue.number n).Int64Value = true) :
    ResizeWindow (.number n :: .number width :: .number height :: rest) s =
      ⟨.Boolean ((SetWindowPos (JsValue.number n).Int64Value 0 0 0
          (JsValue.number width).Int32Value (JsValue.number height).Int32Value
          (SWP_NOMOVE ||| SWP_NOZORDER) s).val != false),
        (SetWindowPos (JsValue.number n).Int64Value 0 0 0
          (JsValue.number width).Int32Value (JsValue.number height).Int32Value
          (SWP_NOMOVE ||| SWP_NOZORDER) s).state,
        [.IsWindow (JsValue.number n).Int64Value,
          .SetWindowPos (JsValue.number n).Int64Value 0 0 0
            (JsValue.number width).Int32Value (JsValue.number height).Int32Value
            (SWP_NOMOVE ||| SWP_NOZORDER)]⟩ := by
  have hlen : ¬ rest.length + 1 + 1 + 1 < 3 := by omega
  simp [ResizeWindow, arg, JsValue.IsNumber, hlive, run_ite, hlen]

theorem Int32Value_of_inInt32 (n : Int) (h : inInt32 n) : (JsValue.number n).Int32Value = n := by
  unfold inInt32 at h
  show (n + 2147483648) % 4294967296 - 2147483648 = n
  omega

@[simp] theorem GetWindowTextLengthA_calls (h : HWND) (s : OsState) :
    (GetWindowTextLengthA h s).calls = [.GetWindowTextLengthA h] := rfl

@[simp] theorem GetWindowTextA_calls (h : HWND) (n : Int) (s : OsState) :
    (GetWindowTextA h n s).calls = [.GetWindowTextA h n] := rfl

theorem MoveWindowEx_keeps_size (s : OsState) (n x y : Int) (rest : List JsValue) :
    (MoveWindowEx (.number n :: .number x :: .number y :: rest) s).state.sizeAt
      (JsValue.number n).Int64Value = s.sizeAt (JsValue.number n).Int64Value := by
  cases hl : s.live (JsValue.number n).Int64Value with
  | false => rw [MoveWindowEx_dead s n x y rest hl]
  | true =>
    rw [MoveWindowEx_live s n x y rest hl]
    simp only
    unfold OsState.live at hl
    cases hw : s.lookup (JsValue.number n).Int64Value with
    | none => simp [hw] at hl
    | some w =>
      have hh := (lookup_hwnd s _ w hw).1
      unfold SetWindowPos
      simp only [hw]
      by_cases hlock : w.locked = true
      · simp [hlock, OsState.sizeAt, hw]
      · simp only [hlock, Bool.false_eq_true, if_false]
        have h1 : hasFlag (SWP_NOSIZE ||| SWP_NOZORDER) SWP_NOACTIVATE = false := by decide
        have h2 : hasFlag (SWP_NOSIZE ||| SWP_NOZORDER) SWP_NOSIZE = true := by decide
        simp only [h1, h2, Bool.not_false, if_true]
        unfold OsState.sizeAt
        have hw1 := hw
        unfold OsState.lookup at hw1
        simp [OsState.lookup, OsState.raise, hh, hw1]

theorem ResizeWindow_keeps_position (s : OsState) (n width height : Int) (rest : List JsValue) :
    (ResizeWindow (.number n :: .number width :: .number height :: rest) s).state.positionAt
      (JsValue.number n).Int64Value = s.positionAt (JsValue.number n).Int64Value := by
  cases hl : s.live (JsValue.number n).Int64Value with
  | false => rw [ResizeWindow_dead s n width height rest hl]
  | true =>
    rw [ResizeWindow_live s n width height rest hl]
    simp only
    unfold OsState.live at hl
    cases hw : s.lookup (JsValue.number n).Int64Value with
    | none => simp [hw] at hl
    | some w =>
      have hh := (lookup_hwnd s _ w hw).1
      unfold SetWindowPos
      simp only [hw]
      by_cases hlock : w.locked = true
      · simp [hlock, OsState.positionAt, hw]
      · simp only [hlock, Bool.false_eq_true, if_false]
        have h1 : hasFlag (SWP_NOMOVE ||| SWP_NOZORDER) SWP_NOACTIVATE = false := by decide
        have h2 : hasFlag (SWP_NOMOVE ||| SWP_NOZORDER) SWP_NOMOVE = true := by decide
        simp only [h1, h2, Bool.not_false, if_true]
        unfold OsState.positionAt
        have hw1 := hw
        unfold OsState.lookup at hw1
        simp [OsState.lookup, OsState.raise, hh, hw1]

/-! ## The claims -/

/-- C1 (amended): on a valid registry, in literal mode or in regex mode, when windows
`i < j` of the enumeration both satisfy the predicate, `i` is the first that does, and the
regex search raises no `std::regex_error` on the titles of the windows before `i`,
`focusWindow` returns `true`, its mutating calls are exactly the focus sequence on the
handle of window `i`, and none of them is applied to the handle of window `j`. -/
theorem C1_first_match_wins (lib : StdRegex) (s : OsState) (pattern : CString)
    (rest : List JsValue) (i j : Nat) (wi wj : WindowInfo)
    (hs : s.Valid)
    (hij : i < j)
    (hi : (enumeration s)[i]? = some wi)
    (hj : (enumeration s)[j]? = some wj)
    (hmi : FocusWindow.satisfies lib pattern (FocusWindow.useRegex (.string pattern :: rest))
      wi.title = true)
    (_hmj : FocusWindow.satisfies lib pattern (FocusWindow.useRegex (.string pattern :: rest))
      wj.title = true)
    (hfirst : ∀ (k : Nat) (w : WindowInfo), k < i → (enumeration s)[k]? = some w →
      FocusWindow.satisfies lib pattern (FocusWindow.useRegex (.string pattern :: rest))
        w.title = false)
    (hclean : ∀ (k : Nat) (w : WindowInfo), k < i → (enumeration s)[k]? = some w →
      FocusWindow.raises lib pattern (FocusWindow.useRegex (.string pattern :: rest))
        w.title = false) :
    (FocusWindow lib (.string pattern :: rest) s).val = .Boolean true ∧
    (FocusWindow lib (.string pattern :: rest) s).mutations = focusSequence s wi.handle ∧
    (∀ c ∈ (FocusWindow lib (.string pattern :: rest) s).mutations,
      c.target = wi.handle ∧ c.target ≠ wj.handle) := by
  have heq := enumeration_eq s hs.1
  have hne0 : wi.handle ≠ 0 :=
    visibleTitled_handle_ne_zero s hs wi (heq ▸ List.getElem?_mem hi)
  have hne : wi.handle ≠ wj.handle :=
    visibleTitled_handle_ne s hs i j wi wj hij (heq ▸ hi) (heq ▸ hj)
  have hsearch := search_first_match lib pattern _ (enumeration s) i wi hi hmi
    (fun k w hk hw => ⟨hfirst k w hk hw, hclean k w hk hw⟩)
  obtain ⟨hv, hm⟩ := FocusWindow_some lib pattern rest s wi.handle hne0 hsearch
  refine ⟨hv, hm, ?_⟩
  intro c hc
  rw [hm] at hc
  have ht : c.target = wi.handle := by
    unfold focusSequence at hc
    rcases List.mem_append.mp hc with h | h
    · split at h
      · rw [List.mem_singleton] at h
        rw [h]
        rfl
      · simp at h
    · simp only [List.mem_cons, List.mem_singleton, List.not_mem_nil, or_false] at h
      rcases h with h | h <;> rw [h] <;> rfl
  exact ⟨ht, ht ▸ hne⟩

/-- C1 (counterexample): with a library that accepts the pattern "note" but whose search
gives up on the title "Editor", windows 1 and 2 of the enumeration ("My Notepad",
"Notepad 2") both satisfy the predicate and window 0 does not, yet `focusWindow("note",
true)` throws "Invalid regex pattern" and applies the focus sequence to no window. -/
theorem C1_counterexample :
    sampleOs.Valid ∧
    (givingUpRegex.basic_regex (ascii "note")).isSome = true ∧
    (enumeration sampleOs)[0]? = some ⟨11, ascii "Editor"⟩ ∧
    (enumeration sampleOs)[1]? = some ⟨12, ascii "My Notepad"⟩ ∧
    (enumeration sampleOs)[2]? = some ⟨14, ascii "Notepad 2"⟩ ∧
    FocusWindow.satisfies givingUpRegex (ascii "note") true (ascii "Editor") = false ∧
    FocusWindow.satisfies givingUpRegex (ascii "note") true (ascii "My Notepad") = true ∧
    FocusWindow.satisfies givingUpRegex (ascii "note") true (ascii "Notepad 2") = true ∧
    (FocusWindow givingUpRegex [.string (ascii "note"), .boolean true] sampleOs).val =
      .Error "Invalid regex pattern" ∧
    (FocusWindow givingUpRegex [.string (ascii "note"), .boolean true] sampleOs).mutations = [] := by
  decide

/-- C1 at the sample registry: in regex mode "note" first matches window 12, before window 14. -/
theorem C1_first_match_wins_witness :
    sampleOs.Valid ∧
    (enumeration sampleOs)[1]? = some ⟨12, ascii "My Notepad"⟩ ∧
    (enumeration sampleOs)[2]? = some ⟨14, ascii "Notepad 2"⟩ ∧
    (FocusWindow sampleRegex [.string (ascii "note"), .boolean true] sampleOs).val =
      .Boolean true ∧
    (FocusWindow sampleRegex [.string (ascii "note"), .boolean true] sampleOs).mutations =
      focusSequence sampleOs 12 ∧
    (∀ c ∈ (FocusWindow sampleRegex [.string (ascii "note"), .boolean true] sampleOs).mutations,
      c.target = 12 ∧ c.target ≠ 14) :=
  ⟨by decide, by decide, by decide,
    C1_first_match_wins sampleRegex sampleOs (ascii "note") [.boolean true] 1 2
      ⟨12, ascii "My Notepad"⟩ ⟨14, ascii "Notepad 2"⟩ (by decide)
      (by decide) (by decide) (by decide) (by decide) (by decide)
      (by
        intro k w hk hw
        have hk0 : k = 0 := by omega
        subst hk0
        have hw0 : w = ⟨11, ascii "Editor"⟩ := by
          have h0 : (enumeration sampleOs)[0]? = some ⟨11, ascii "Editor"⟩ := by decide
          rw [h0] at hw
          exact (Option.some.inj hw).symm
        subst hw0
        decide)
      (by
        intro k w hk hw
        have hk0 : k = 0 := by omega
        subst hk0
        have hw0 : w = ⟨11, ascii "Editor"⟩ := by
          have h0 : (enumeration sampleOs)[0]? = some ⟨11, ascii "Editor"⟩ := by decide
          rw [h0] at hw
          exact (Option.some.inj hw).symm
        subst hw0
        decide)⟩

/-- C2 (amended): the literal test of `focusWindow` holds exactly when the lower-cased
pattern occurs contiguously in the lower-cased title; it is the test of the literal loop;
"note" matches "My Notepad"; changing the case of ASCII letters of the pattern or of the
title never changes the outcome; lower-casing leaves every byte outside `A`..`Z` as it
is, so those bytes are compared exactly. -/
theorem C2_literal_case_insensitive_substring :
    (∀ pattern title : CString,
      literalMatch pattern title = true ↔ transformTolower pattern <:+: transformTolower title) ∧
    (∀ (pattern : CString) (win : WindowInfo) (rest : List WindowInfo),
      FocusWindow.literalLoop (transformTolower pattern) (win :: rest) =
        if literalMatch pattern win.title then win.handle
        else FocusWindow.literalLoop (transformTolower pattern) rest) ∧
    literalMatch (ascii "note") (ascii "My Notepad") = true ∧
    (∀ (m1 m2 : List Bool) (pattern title : CString),
      literalMatch (changeCase m1 pattern) (changeCase m2 title) = literalMatch pattern title) ∧
    (∀ c : Nat, (c < 65 ∨ 90 < c) → tolower c = c) := by
  refine ⟨?_, ?_, by decide, ?_, ?_⟩
  · intro pattern title
    unfold literalMatch
    exact find_isSome_iff _ _
  · intro pattern win rest
    rfl
  · intro m1 m2 pattern title
    unfold literalMatch
    simp only [transformTolower_changeCase]
  · intro c hc
    unfold tolower
    split_ifs with h
    · omega
    · rfl

/-- C2 (counterexample): against the title "É" the pattern "É" matches and the pattern "é",
the same letter in lower case, does not: the case of a letter outside ASCII changes the
outcome (the strings as their UTF-8 bytes). -/
theorem C2_counterexample :
    utf8 "É" = [195, 137] ∧ utf8 "é" = [195, 169] ∧
    literalMatch (utf8 "É") (utf8 "É") = true ∧
    literalMatch (utf8 "é") (utf8 "É") = false := by
  decide

/-- C2 at a byte outside `A`..`Z`: lower-casing leaves 195 as it is. -/
theorem C2_literal_case_insensitive_substring_witness : tolower 195 = 195 :=
  C2_literal_case_insensitive_substring.2.2.2.2 195 (Or.inr (by decide))

/-- C3: whatever the windows (also none at all), `focusWindow(pattern, true)` with a
pattern the regex constructor rejects throws the error "Invalid regex pattern": it returns
neither `false` nor `true` (no literal matching takes place), makes no restore, foreground
or focus call and leaves the OS state as it was. -/
theorem C3_invalid_regex_is_error (lib : StdRegex) (s : OsState) (pattern : CString)
    (rest : List JsValue) (hbad : lib.basic_regex pattern = none) :
    (FocusWindow lib (.string pattern :: .boolean true :: rest) s).val =
      .Error "Invalid regex pattern" ∧
    (FocusWindow lib (.string pattern :: .boolean true :: rest) s).val.isThrow = true ∧
    (FocusWindow lib (.string pattern :: .boolean true :: rest) s).val ≠ .Boolean false ∧
    (FocusWindow lib (.string pattern :: .boolean true :: rest) s).val ≠ .Boolean true ∧
    (FocusWindow lib (.string pattern :: .boolean true :: rest) s).mutations = [] ∧
    (FocusWindow lib (.string pattern :: .boolean true :: rest) s).state = s := by
  have hsearch : FocusWindow.search lib pattern
      (FocusWindow.useRegex (.string pattern :: .boolean true :: rest)) (enumeration s) = none := by
    simp [FocusWindow.search, FocusWindow.useRegex, arg, JsValue.IsBoolean, JsValue.Value, hbad]
  obtain ⟨hv, hst, hm⟩ := FocusWindow_error lib pattern (.boolean true :: rest) s hsearch
  rw [hv]
  exact ⟨rfl, rfl, by simp, by simp, hm, hst⟩

/-- C3 at the sample registry with the rejected pattern "(note". -/
theorem C3_invalid_regex_is_error_witness :
    sampleRegex.basic_regex (ascii "(note") = none ∧
    (FocusWindow sampleRegex [.string (ascii "(note"), .boolean true] sampleOs).val =
      .Error "Invalid regex pattern" ∧
    (FocusWindow sampleRegex [.string (ascii "(note"), .boolean true] sampleOs).mutations = [] :=
  ⟨rfl,
    (C3_invalid_regex_is_error sampleRegex sampleOs (ascii "(note") [] rfl).1,
    (C3_invalid_regex_is_error sampleRegex sampleOs (ascii "(note") [] rfl).2.2.2.2.1⟩

/-- C4 (amended): on a valid registry, in literal mode or in regex mode with a pattern the
constructor accepts,
* `focusWindow` returns `true` exactly when some enumerated title satisfies the predicate
  and the regex search raises no `std::regex_error` on the titles before the first such;
* when no title satisfies the predicate and no search raises, it returns `false`, throws
  nothing, makes no restore, foreground or focus call and leaves the OS state as it was;
* so when the search raises on no enumerated title, it returns `true` exactly when some
  enumerated title satisfies the predicate;
* when the search raises on a title reached before any match, it throws the error
  "Invalid regex pattern" and makes no restore, foreground or focus call. -/
theorem C4_true_iff_match_reached (lib : StdRegex) (s : OsState) (pattern : CString)
    (rest : List JsValue) (hs : s.Valid)
    (hvalid : FocusWindow.useRegex (.string pattern :: rest) = true →
      (lib.basic_regex pattern).isSome = true) :
    ((FocusWindow lib (.string pattern :: rest) s).val = .Boolean true ↔
      ∃ (i : Nat) (wi : WindowInfo), (enumeration s)[i]? = some wi ∧
        FocusWindow.satisfies lib pattern (FocusWindow.useRegex (.string pattern :: rest))
          wi.title = true ∧
        ∀ (k : Nat) (w : WindowInfo), k < i → (enumeration s)[k]? = some w →
          FocusWindow.satisfies lib pattern (FocusWindow.useRegex (.string pattern :: rest))
            w.title = false ∧
          FocusWindow.raises lib pattern (FocusWindow.useRegex (.string pattern :: rest))
            w.title = false) ∧
    ((∀ w ∈ enumeration s,
        FocusWindow.satisfies lib pattern (FocusWindow.useRegex (.string pattern :: rest))
          w.title = false ∧
        FocusWindow.raises lib pattern (FocusWindow.useRegex (.string pattern :: rest))
          w.title = false) →
      (FocusWindow lib (.string pattern :: rest) s).val = .Boolean false ∧
      (FocusWindow lib (.string pattern :: rest) s).val.isThrow = false ∧
      (FocusWindow lib (.string pattern :: rest) s).mutations = [] ∧
      (FocusWindow lib (.string pattern :: rest) s).state = s) ∧
    ((∀ w ∈ enumeration s,
        FocusWindow.raises lib pattern (FocusWindow.useRegex (.string pattern :: rest))
          w.title = false) →
      ((FocusWindow lib (.string pattern :: rest) s).val = .Boolean true ↔
        ∃ w ∈ enumeration s, FocusWindow.satisfies lib pattern
          (FocusWindow.useRegex (.string pattern :: rest)) w.title = true)) ∧
    (∀ (i : Nat) (wi : WindowInfo), (enumeration s)[i]? = some wi →
      FocusWindow.raises lib pattern (FocusWindow.useRegex (.string pattern :: rest))
        wi.title = true →
      (∀ (k : Nat) (w : WindowInfo), k < i → (enumeration s)[k]? = some w →
        FocusWindow.satisfies lib pattern (FocusWindow.useRegex (.string pattern :: rest))
          w.title = false ∧
        FocusWindow.raises lib pattern (FocusWindow.useRegex (.string pattern :: rest))
          w.title = false) →
      (FocusWindow lib (.string pattern :: rest) s).val = .Error "Invalid regex pattern" ∧
      (FocusWindow lib (.string pattern :: rest) s).mutations = [] ∧
      (FocusWindow lib (.string pattern :: rest) s).state = s) := by
  have heq := enumeration_eq s hs.1
  -- the result is `true` exactly when the search ends on a non-null handle
  have htrue : (FocusWindow lib (.string pattern :: rest) s).val = .Boolean true →
      ∃ t, t ≠ 0 ∧ FocusWindow.search lib pattern
        (FocusWindow.useRegex (.string pattern :: rest)) (enumeration s) = some t := by
    intro hv
    cases hsr : FocusWindow.search lib pattern
        (FocusWindow.useRegex (.string pattern :: rest)) (enumeration s) with
    | none =>
      have := (FocusWindow_error lib pattern rest s hsr).1
      rw [this] at hv
      simp at hv
    | some t =>
      by_cases ht : t = 0
      · subst ht
        have := (FocusWindow_none lib pattern rest s hsr).1
        rw [this] at hv
        simp at hv
      · exact ⟨t, ht, rfl⟩
  have hfirst : ∀ (i : Nat) (wi : WindowInfo), (enumeration s)[i]? = some wi →
      FocusWindow.satisfies lib pattern (FocusWindow.useRegex (.string pattern :: rest))
        wi.title = true →
      (∀ (k : Nat) (w : WindowInfo), k < i → (enumeration s)[k]? = some w →
        FocusWindow.satisfies lib pattern (FocusWindow.useRegex (.string pattern :: rest))
          w.title = false ∧
        FocusWindow.raises lib pattern (FocusWindow.useRegex (.string pattern :: rest))
          w.title = false) →
      (FocusWindow lib (.string pattern :: rest) s).val = .Boolean true := by
    intro i wi hi hsat hpre
    have hne0 : wi.handle ≠ 0 :=
      visibleTitled_handle_ne_zero s hs wi (heq ▸ List.getElem?_mem hi)
    have hsearch := search_first_match lib pattern _ (enumeration s) i wi hi hsat hpre
    exact (FocusWindow_some lib pattern rest s wi.handle hne0 hsearch).1
  have hiff : (FocusWindow lib (.string pattern :: rest) s).val = .Boolean true ↔
      ∃ (i : Nat) (wi : WindowInfo), (enumeration s)[i]? = some wi ∧
        FocusWindow.satisfies lib pattern (FocusWindow.useRegex (.string pattern :: rest))
          wi.title = true ∧
        ∀ (k : Nat) (w : WindowInfo), k < i → (enumeration s)[k]? = some w →
          FocusWindow.satisfies lib pattern (FocusWindow.useRegex (.string pattern :: rest))
            w.title = false ∧
          FocusWindow.raises lib pattern (FocusWindow.useRegex (.string pattern :: rest))
            w.title = false := by
    constructor
    · intro hv
      obtain ⟨t, ht, hsr⟩ := htrue hv
      exact search_index lib pattern _ (enumeration s) t ht hsr
    · rintro ⟨i, wi, hi, hsat, hpre⟩
      exact hfirst i wi hi hsat hpre
  refine ⟨hiff, ?_, ?_, ?_⟩
  · intro hall
    have hsearch := search_no_event lib pattern _ (enumeration s) hvalid hall
    obtain ⟨hv, hst, hm⟩ := FocusWindow_none lib pattern rest s hsearch
    rw [hv]
    exact ⟨rfl, rfl, hm, hst⟩
  · intro hclean
    rw [hiff]
    constructor
    · rintro ⟨i, wi, hi, hsat, _⟩
      exact ⟨wi, List.getElem?_mem hi, hsat⟩
    · rintro ⟨w, hw, hsat⟩
      cases hf : (enumeration s).find? (fun v : WindowInfo => FocusWindow.satisfies lib pattern
          (FocusWindow.useRegex (.string pattern :: rest)) v.title) with
      | none =>
        rw [List.find?_eq_none] at hf
        exact absurd hsat (hf w hw)
      | some v =>
        obtain ⟨i, hi, hp, hpre⟩ := find_index _ (enumeration s) v hf
        refine ⟨i, v, hi, hp, ?_⟩
        intro k u hk hu
        exact ⟨hpre k u hk hu, hclean u (List.getElem?_mem hu)⟩
  · intro i wi hi hr hpre
    have hsearch := search_first_raise lib pattern _ (enumeration s) i wi hi hr hpre
    obtain ⟨hv, hst, hm⟩ := FocusWindow_error lib pattern rest s hsearch
    exact ⟨hv, hm, hst⟩

/-- C4 (counterexample): with a library that accepts the pattern "note" but whose search
gives up on the title "Editor", an enumerated window ("My Notepad") satisfies the
predicate, yet `focusWindow("note", true)` does not return `true`: it throws. -/
theorem C4_counterexample :
    sampleOs.Valid ∧
    (givingUpRegex.basic_regex (ascii "note")).isSome = true ∧
    (⟨12, ascii "My Notepad"⟩ : WindowInfo) ∈ enumeration sampleOs ∧
    FocusWindow.satisfies givingUpRegex (ascii "note")
      (FocusWindow.useRegex [.string (ascii "note"), .boolean true]) (ascii "My Notepad") = true ∧
    (FocusWindow givingUpRegex [.string (ascii "note"), .boolean true] sampleOs).val ≠
      .Boolean true ∧
    (FocusWindow givingUpRegex [.string (ascii "note"), .boolean true] sampleOs).val.isThrow =
      true := by
  decide

/-- C4 at the sample registry: with the sample library, whose search raises nothing, "note"
in regex mode gives `true` exactly when some enumerated title satisfies the predicate; with
the library that gives up on "Editor" the call throws. -/
theorem C4_true_iff_match_reached_witness :
    sampleOs.Valid ∧
    ((FocusWindow sampleRegex [.string (ascii "note"), .boolean true] sampleOs).val =
        .Boolean true ↔
      ∃ w ∈ enumeration sampleOs, FocusWindow.satisfies sampleRegex (ascii "note")
        (FocusWindow.useRegex [.string (ascii "note"), .boolean true]) w.title = true) ∧
    (FocusWindow givingUpRegex [.string (ascii "note"), .boolean true] sampleOs).val =
      .Error "Invalid regex pattern" :=
  ⟨by decide,
    (C4_true_iff_match_reached sampleRegex sampleOs (ascii "note") [.boolean true] (by decide)
      (fun _ => rfl)).2.2.1 (by decide),
    ((C4_true_iff_match_reached givingUpRegex sampleOs (ascii "note") [.boolean true] (by decide)
      (fun _ => rfl)).2.2.2 0 ⟨11, ascii "Editor"⟩ (by decide) (by decide)
      (fun k _ hk _ => absurd hk (Nat.not_lt_zero k))).1⟩

/-- C5: when the handles of the OS are unique, the vector filled by the enumeration holds
exactly the windows that are visible and have a non-empty title, each with its handle and
title, in the order of the OS; no entry has an empty title or belongs to a window that is
not visible; the enumeration changes nothing; and `getWindows`, unless it throws, returns
one descriptor for each entry, in the same order. -/
theorem C5_enumeration_visible_titled (s : OsState) (hs : s.zorder.Nodup) :
    enumeration s = visibleTitled s ∧
    (∀ e ∈ enumeration s, e.title ≠ [] ∧
      ∃ w ∈ s.windows, w.hwnd = e.handle ∧ w.text = e.title ∧ w.visible = true) ∧
    (∀ w ∈ s.windows, w.visible = true → w.text ≠ [] →
      ({ handle := w.hwnd, title := w.text } : WindowInfo) ∈ enumeration s) ∧
    List.Sublist ((enumeration s).map (·.handle)) s.zorder ∧
    (EnumWindows EnumWindowsProc [] s).state = s ∧
    (∀ info, (∃ msg, (GetWindows info s).val = .TypeError msg) ∨
      ∃ ds, (GetWindows info s).val = .Array ds ∧ ds.map Descriptor.info = enumeration s) := by
  have heq := enumeration_eq s hs
  refine ⟨heq, ?_, ?_, ?_, EnumWindows_state [] s, ?_⟩
  · intro e he
    rw [heq] at he
    simp only [visibleTitled, List.mem_map, List.mem_filter] at he
    obtain ⟨w, ⟨hw, hc⟩, rfl⟩ := he
    simp only [Bool.and_eq_true, Bool.not_eq_true', List.isEmpty_eq_false] at hc
    refine ⟨?_, w, hw, rfl, rfl, hc.1⟩
    simpa using hc.2
  · intro w hw hv ht
    rw [heq]
    simp only [visibleTitled, List.mem_map, List.mem_filter]
    refine ⟨w, ⟨hw, ?_⟩, rfl⟩
    simp [hv, ht]
  · rw [heq]
    exact visibleTitled_handles_sublist s
  · intro info
    have := GetWindows_loop (enumeration s) [] s
    simpa [GetWindows, enumeration, EnumWindows_state] using this

/-- C5 at the sample registry: the hidden window 13 and the untitled window 15 are left out. -/
theorem C5_enumeration_visible_titled_witness :
    sampleOs.zorder.Nodup ∧
    enumeration sampleOs = visibleTitled sampleOs ∧
    visibleTitled sampleOs =
      [⟨11, ascii "Editor"⟩, ⟨12, ascii "My Notepad"⟩, ⟨14, ascii "Notepad 2"⟩] :=
  ⟨by decide, (C5_enumeration_visible_titled sampleOs (by decide)).1, by decide⟩

/-- C6: for a numeric handle that names no live window, `focusWindowByHandle`, `moveWindow`
and `resizeWindow` (called with numbers) each return `false`, throw nothing, make no
mutating call and leave the OS state as it was; for a live handle `focusWindowByHandle`
returns `true`. -/
theorem C6_dead_handle_soft_failure (s : OsState) (n : Int) :
    (s.live (JsValue.number n).Int64Value = false →
      (∀ rest, (FocusWindowByHandle (.number n :: rest) s).val = .Boolean false ∧
        (FocusWindowByHandle (.number n :: rest) s).mutations = [] ∧
        (FocusWindowByHandle (.number n :: rest) s).state = s) ∧
      (∀ x y rest, (MoveWindowEx (.number n :: .number x :: .number y :: rest) s).val =
          .Boolean false ∧
        (MoveWindowEx (.number n :: .number x :: .number y :: rest) s).mutations = [] ∧
        (MoveWindowEx (.number n :: .number x :: .number y :: rest) s).state = s) ∧
      (∀ width height rest,
        (ResizeWindow (.number n :: .number width :: .number height :: rest) s).val =
          .Boolean false ∧
        (ResizeWindow (.number n :: .number width :: .number height :: rest) s).mutations = [] ∧
        (ResizeWindow (.number n :: .number width :: .number height :: rest) s).state = s)) ∧
    (s.live (JsValue.number n).Int64Value = true →
      ∀ rest, (FocusWindowByHandle (.number n :: rest) s).val = .Boolean true) := by
  constructor
  · intro hdead
    refine ⟨?_, ?_, ?_⟩
    · intro rest
      simp [FocusWindowByHandle, arg, JsValue.IsNumber, hdead, Run.mutations, run_ite,
        OsCall.mutating]
    · intro x y rest
      rw [MoveWindowEx_dead s n x y rest hdead]
      exact ⟨rfl, rfl, rfl⟩
    · intro width height rest
      rw [ResizeWindow_dead s n width height rest hdead]
      exact ⟨rfl, rfl, rfl⟩
  · intro hlive rest
    simp [FocusWindowByHandle, arg, JsValue.IsNumber, hlive, run_ite]
    split <;> rfl

/-- C6 at the sample registry: 99 names no window, 12 names a live one. -/
theorem C6_dead_handle_soft_failure_witness :
    sampleOs.live (JsValue.number 99).Int64Value = false ∧
    (MoveWindowEx [.number 99, .number 10, .number 20] sampleOs).val = .Boolean false ∧
    sampleOs.live (JsValue.number 12).Int64Value = true ∧
    (FocusWindowByHandle [.number 12] sampleOs).val = .Boolean true :=
  ⟨by decide,
    (((C6_dead_handle_soft_failure sampleOs 99).1 (by decide)).2.1 10 20 []).1,
    by decide,
    (C6_dead_handle_soft_failure sampleOs 12).2 (by decide) []⟩

/-- C7 (amended): a call that lacks a required argument, or gives one of the wrong type
(`focusWindow`: a string first; `focusWindowByHandle`: a number first; `moveWindow` and
`resizeWindow`: three numbers), throws a `TypeError` before any OS call is made and leaves
the OS state as it was. A `useRegex` that is not a Boolean is not rejected: the call runs
as in literal mode; arguments past the ones an export reads are ignored. -/
theorem C7_required_arguments_checked (lib : StdRegex) (op : Export) (info : List JsValue)
    (s : OsState) :
    (op.requiredOk info = false →
      (∃ msg, (Init lib op info s).val = .TypeError msg) ∧
      (Init lib op info s).calls = [] ∧ (Init lib op info s).state = s) ∧
    (∀ p v rest, v.IsBoolean = false →
      FocusWindow lib (.string p :: v :: rest) s = FocusWindow lib [.string p] s) ∧
    (∀ a b rest, FocusWindow lib (a :: b :: rest) s = FocusWindow lib [a, b] s) ∧
    (∀ a rest, FocusWindowByHandle (a :: rest) s = FocusWindowByHandle [a] s) ∧
    (∀ a b c rest, MoveWindowEx (a :: b :: c :: rest) s = MoveWindowEx [a, b, c] s) ∧
    (∀ a b c rest, ResizeWindow (a :: b :: c :: rest) s = ResizeWindow [a, b, c] s) := by
  refine ⟨?_, ?_, ?_, ?_, ?_, ?_⟩
  · intro h
    cases op with
    | getWindows => simp [Export.requiredOk, Export.required] at h
    | getActiveWindow => simp [Export.requiredOk, Export.required] at h
    | focusWindow =>
      cases info with
      | nil => exact ⟨⟨_, rfl⟩, rfl, rfl⟩
      | cons a rest =>
        have ha : a.IsString = false := by
          simpa [Export.requiredOk, Export.required] using h
        simp [Init, FocusWindow, arg, ha]
    | focusWindowByHandle =>
      cases info with
      | nil => exact ⟨⟨_, rfl⟩, rfl, rfl⟩
      | cons a rest =>
        have ha : a.IsNumber = false := by
          simpa [Export.requiredOk, Export.required] using h
        simp [Init, FocusWindowByHandle, arg, ha]
    | moveWindow =>
      rcases info with _ | ⟨a, _ | ⟨b, _ | ⟨c, rest⟩⟩⟩
      · exact ⟨⟨_, rfl⟩, rfl, rfl⟩
      · exact ⟨⟨_, rfl⟩, rfl, rfl⟩
      · exact ⟨⟨_, rfl⟩, rfl, rfl⟩
      · have hlen : ¬ rest.length + 1 + 1 + 1 < 3 := by omega
        have habc : (!a.IsNumber || !b.IsNumber || !c.IsNumber) = true := by
          simp [Export.requiredOk, Export.required] at h
          cases ha : a.IsNumber <;> cases hb : b.IsNumber <;> cases hc : c.IsNumber <;> simp_all
        simp only [Init, MoveWindowEx, arg, List.length_cons, hlen, if_false, List.getD_cons_zero,
          List.getD_cons_succ, habc, if_true]
        exact ⟨⟨_, rfl⟩, rfl, rfl⟩
    | resizeWindow =>
      rcases info with _ | ⟨a, _ | ⟨b, _ | ⟨c, rest⟩⟩⟩
      · exact ⟨⟨_, rfl⟩, rfl, rfl⟩
      · exact ⟨⟨_, rfl⟩, rfl, rfl⟩
      · exact ⟨⟨_, rfl⟩, rfl, rfl⟩
      · have hlen : ¬ rest.length + 1 + 1 + 1 < 3 := by omega
        have habc : (!a.IsNumber || !b.IsNumber || !c.IsNumber) = true := by
          simp [Export.requiredOk, Export.required] at h
          cases ha : a.IsNumber <;> cases hb : b.IsNumber <;> cases hc : c.IsNumber <;> simp_all
        simp only [Init, ResizeWindow, arg, List.length_cons, hlen, if_false, List.getD_cons_zero,
          List.getD_cons_succ, habc, if_true]
        exact ⟨⟨_, rfl⟩, rfl, rfl⟩
  · intro p v rest hv
    simp [FocusWindow, FocusWindow.useRegex, arg, hv]
  · intro a b rest
    simp [FocusWindow, FocusWindow.useRegex, arg]
  · intro a rest
    simp [FocusWindowByHandle, arg]
  · intro a b c rest
    have hlen : ¬ rest.length + 1 + 1 + 1 < 3 := by omega
    simp [MoveWindowEx, arg, hlen]
  · intro a b c rest
    have hlen : ¬ rest.length + 1 + 1 + 1 < 3 := by omega
    simp [ResizeWindow, arg, hlen]

/-- C7 (counterexample): `focusWindow("note", 1)` has a `useRegex` that is no Boolean; it is
not rejected: the OS is asked for its windows, "My Notepad" is focused, `true` is returned. -/
theorem C7_counterexample :
    Export.signatureOk .focusWindow [.string (ascii "note"), .number 1] = false ∧
    (Init sampleRegex .focusWindow [.string (ascii "note"), .number 1] sampleOs).val =
      .Boolean true ∧
    (Init sampleRegex .focusWindow [.string (ascii "note"), .number 1] sampleOs).mutations =
      [.SetForegroundWindow 12, .SetFocus 12] := by
  decide

/-- C7 at `moveWindow(14, "10")`: an argument is missing and one is no number. -/
theorem C7_required_arguments_checked_witness :
    (∃ msg, (Init sampleRegex .moveWindow [.number 14, .string (ascii "10")] sampleOs).val =
      .TypeError msg) ∧
    (Init sampleRegex .moveWindow [.number 14, .string (ascii "10")] sampleOs).calls = [] ∧
    (Init sampleRegex .moveWindow [.number 14, .string (ascii "10")] sampleOs).state = sampleOs :=
  (C7_required_arguments_checked sampleRegex .moveWindow [.number 14, .string (ascii "10")]
    sampleOs).1 (by decide)

/-- C8 (amended): `getActiveWindow` returns `null` when the OS reports no foreground window;
when there is one and the OS reports its rectangle, it returns the descriptor of that
window: handle, title, position `(left, top)` and size `(right - left, bottom - top)`, the
differences taken in 32-bit `LONG` arithmetic; when `GetWindowRect` fails it throws a
`TypeError`. It makes no mutating call and leaves the OS state as it was. -/
theorem C8_active_window_descriptor (s : OsState) (info : List JsValue) :
    (s.foreground = 0 → (GetActiveWindowInfo info s).val = .Null) ∧
    (∀ w, s.foreground ≠ 0 → s.lookup s.foreground = some w → w.rectFails = false →
      (GetActiveWindowInfo info s).val = .Object ⟨s.foreground, w.text, w.rect.left, w.rect.top,
        subLONG w.rect.right w.rect.left, subLONG w.rect.bottom w.rect.top⟩) ∧
    (s.foreground ≠ 0 → (GetWindowRect s.foreground s).val = none →
      (GetActiveWindowInfo info s).val =
        .TypeError "Underlaying call to Windows API GetWindowRect failed.") ∧
    (GetActiveWindowInfo info s).mutations = [] ∧
    (GetActiveWindowInfo info s).state = s := by
  refine ⟨?_, ?_, ?_, ?_, ?_⟩
  · intro h0
    simp [GetActiveWindowInfo, h0, run_ite]
  · intro w hne hw hr
    have hrect : (GetWindowRect s.foreground s).val = some w.rect := by
      simp [GetWindowRect, hw, hr]
    have hlen : (GetWindowTextLengthA s.foreground s).val = (w.text.length : Int) := by
      simp [GetWindowTextLengthA, hw]
    have htext : (GetWindowTextA s.foreground ((w.text.length : Int) + 1) s).val = w.text := by
      simp [GetWindowTextA, hw]
    cases ht : w.text with
    | nil =>
      rw [ht] at hlen
      simp [GetActiveWindowInfo, hne, run_ite, hrect, hlen]
    | cons c t =>
      have hpos : (0 : Int) < ((c :: t).length : Int) := by
        simp only [List.length_cons]
        omega
      rw [ht] at hlen htext
      simp only [List.length_cons, Nat.cast_add, Nat.cast_one] at htext hpos hlen
      simp [GetActiveWindowInfo, hne, run_ite, hrect, hlen, hpos, htext]
  · intro hne hr
    simp [GetActiveWindowInfo, hne, run_ite, hr]
    split <;> rfl
  · by_cases h0 : s.foreground = 0
    · simp [GetActiveWindowInfo, run_ite, Run.mutations, h0, OsCall.mutating]
    · by_cases hl : 0 < (GetWindowTextLengthA s.foreground s).val
      · cases hr : (GetWindowRect s.foreground s).val <;>
          simp [GetActiveWindowInfo, run_ite, Run.mutations, h0, hl, hr, OsCall.mutating]
      · cases hr : (GetWindowRect s.foreground s).val <;>
          simp [GetActiveWindowInfo, run_ite, Run.mutations, h0, hl, hr, OsCall.mutating]
  · by_cases h0 : s.foreground = 0
    · simp [GetActiveWindowInfo, run_ite, h0]
    · by_cases hl : 0 < (GetWindowTextLengthA s.foreground s).val
      · cases hr : (GetWindowRect s.foreground s).val <;>
          simp [GetActiveWindowInfo, run_ite, h0, hl, hr]
      · cases hr : (GetWindowRect s.foreground s).val <;>
          simp [GetActiveWindowInfo, run_ite, h0, hl, hr]

/-- C8 (counterexample): with a foreground window whose rectangle the OS fails to report,
`getActiveWindow` throws a `TypeError`. -/
theorem C8_counterexample :
    sampleOsNoRect.foreground = 21 ∧
    (GetActiveWindowInfo [] sampleOsNoRect).val =
      .TypeError "Underlaying call to Windows API GetWindowRect failed." ∧
    (GetActiveWindowInfo [] sampleOsNoRect).val.isThrow = true := by
  decide

/-- C8 at the sample registry, whose foreground window is window 11, and at a window that
spans the whole `LONG` range, whose width and height wrap to -1. -/
theorem C8_active_window_descriptor_witness :
    (GetActiveWindowInfo [] sampleOs).val =
      .Object ⟨11, ascii "Editor", 100, 100, 400, 300⟩ ∧
    (GetActiveWindowInfo [] sampleOsWide).val =
      .Object ⟨31, ascii "Wide", -2147483648, -2147483648, -1, -1⟩ :=
  ⟨(C8_active_window_descriptor sampleOs []).2.1 (sampleWindow 11 "Editor") (by decide)
    (by decide) (by decide),
   (C8_active_window_descriptor sampleOsWide []).2.1
    { sampleWindow 31 "Wide" with rect := ⟨-2147483648, -2147483648, 2147483647, 2147483647⟩ }
    (by decide) (by decide) (by decide)⟩

/-- C9 (the code at the failing input): on the sample registry window 14 is fourth in the
Z order; `moveWindow(14, 10, 20)` leaves its size as it was but brings it to the top, and
so does `resizeWindow(14, 300, 200)`, which leaves its position as it was: the flags passed
to `SetWindowPos` lack `SWP_NOACTIVATE`. -/
theorem C9_move_and_resize_raise_the_window :
    sampleOs.zindex 14 = 3 ∧
    (MoveWindowEx [.number 14, .number 10, .number 20] sampleOs).val = .Boolean true ∧
    (MoveWindowEx [.number 14, .number 10, .number 20] sampleOs).state.zindex 14 = 0 ∧
    (MoveWindowEx [.number 14, .number 10, .number 20] sampleOs).state.sizeAt 14 =
      sampleOs.sizeAt 14 ∧
    (MoveWindowEx [.number 14, .number 10, .number 20] sampleOs).state.positionAt 14 =
      some (10, 20) ∧
    (ResizeWindow [.number 14, .number 300, .number 200] sampleOs).state.zindex 14 = 0 ∧
    (ResizeWindow [.number 14, .number 300, .number 200] sampleOs).state.positionAt 14 =
      sampleOs.positionAt 14 ∧
    (ResizeWindow [.number 14, .number 300, .number 200] sampleOs).state.sizeAt 14 =
      some (300, 200) ∧
    hasFlag (SWP_NOSIZE ||| SWP_NOZORDER) SWP_NOACTIVATE = false ∧
    hasFlag (SWP_NOMOVE ||| SWP_NOZORDER) SWP_NOACTIVATE = false := by
  decide

/-- C10 (amended): for a live handle and integers within the range of a 32-bit signed
integer, the one mutating call of `moveWindow` is `SetWindowPos` with exactly the given
`x` and `y` (size arguments `0`, flags `SWP_NOSIZE | SWP_NOZORDER`), and the one mutating
call of `resizeWindow` is `SetWindowPos` with exactly the given width and height, zero and
negative values included (position arguments `0`, flags `SWP_NOMOVE | SWP_NOZORDER`). -/
theorem C10_int32_arguments_pass_through (s : OsState) (n a b : Int) (rest : List JsValue)
    (hlive : s.live (JsValue.number n).Int64Value = true) (ha : inInt32 a) (hb : inInt32 b) :
    (MoveWindowEx (.number n :: .number a :: .number b :: rest) s).mutations =
      [.SetWindowPos (JsValue.number n).Int64Value 0 a b 0 0 (SWP_NOSIZE ||| SWP_NOZORDER)] ∧
    (ResizeWindow (.number n :: .number a :: .number b :: rest) s).mutations =
      [.SetWindowPos (JsValue.number n).Int64Value 0 0 0 a b (SWP_NOMOVE ||| SWP_NOZORDER)] := by
  rw [MoveWindowEx_live s n a b rest hlive, ResizeWindow_live s n a b rest hlive,
    Int32Value_of_inInt32 a ha, Int32Value_of_inInt32 b hb]
  exact ⟨rfl, rfl⟩

/-- C10 (counterexample): `moveWindow(14, 2147483648, 20)` on a live window asks the OS for
the position `(-2147483648, 20)`: an integer outside the 32-bit range is wrapped. -/
theorem C10_counterexample :
    sampleOs.live (JsValue.number 14).Int64Value = true ∧
    (MoveWindowEx [.number 14, .number 2147483648, .number 20] sampleOs).mutations =
      [.SetWindowPos 14 0 (-2147483648) 20 0 0 (SWP_NOSIZE ||| SWP_NOZORDER)] ∧
    (MoveWindowEx [.number 14, .number 2147483648, .number 20] sampleOs).mutations ≠
      [.SetWindowPos 14 0 2147483648 20 0 0 (SWP_NOSIZE ||| SWP_NOZORDER)] := by
  decide

/-- C10 at the sample registry with a negative and a zero argument. -/
theorem C10_int32_arguments_pass_through_witness :
    (MoveWindowEx [.number 14, .number (-5), .number 0] sampleOs).mutations =
      [.SetWindowPos 14 0 (-5) 0 0 0 (SWP_NOSIZE ||| SWP_NOZORDER)] ∧
    (ResizeWindow [.number 14, .number (-5), .number 0] sampleOs).mutations =
      [.SetWindowPos 14 0 0 0 (-5) 0 (SWP_NOMOVE ||| SWP_NOZORDER)] :=
  C10_int32_arguments_pass_through sampleOs 14 (-5) 0 [] (by decide) (by decide) (by decide)

end WindowManager
